import Mathlib

/-!
Shallow embedding of `PrivateFreightBiddingEnhanced.sol`
(src/examples/freight-bidding/contracts/PrivateFreightBiddingEnhanced.sol).

The contract is a serially-executed state machine.  Each external function is
modelled as a Lean function `Ctx → args → EngineState → Except FbError ...`:
a `require` failure becomes `Except.error`, and a reverted call leaves the
caller's state untouched (`applyOp` returns the old state on error), matching
EVM revert semantics.  Solidity mappings are total functions returning the
all-zero default record for untouched keys, as in the EVM.  FHE ciphertext
handles are modelled as a store `fheVal : Handle → Nat` of plaintexts with a
per-handle access-control list `fheAcl : Handle → List Grantee`;
`FHE.asEuintXX`/`FHE.asEbool` allocate a fresh handle holding the input's
plaintext, `FHE.allow`/`FHE.allowThis` push a grantee on the handle's list.
Counters are `Nat` (Solidity 0.8 reverts on the astronomically unreachable
uint256 overflow; no operation here can reach it).
-/

abbrev Address := Nat
abbrev Handle := Nat

/-- An entry of a ciphertext handle's access-control list:
either the contract itself (`FHE.allowThis`) or an external account
(`FHE.allow`). -/
inductive Grantee where
  | contract : Grantee
  | acct : Address → Grantee
deriving DecidableEq, Repr

/-- `enum JobStatus { Open, BiddingClosed, Awarded, Completed, Cancelled }`. -/
inductive JobStatus where
  | Open | BiddingClosed | Awarded | Completed | Cancelled
deriving DecidableEq, Repr

/-- `enum BidEvaluationStatus { Pending, UnderReview, Approved, Rejected }`. -/
inductive BidEvaluationStatus where
  | Pending | UnderReview | Approved | Rejected
deriving DecidableEq, Repr

/-- `enum CallbackType` (first member `RevealJobPrice` is the Solidity
default value a deleted mapping entry decays to). -/
inductive CallbackType where
  | RevealJobPrice | RevealBidPrice | RevealUrgency | CompareBids
  | RevealWeight | RevealVolume
deriving DecidableEq, Repr

/-- `struct FreightJob`. -/
structure FreightJob where
  origin : String
  destination : String
  cargoType : String
  encryptedWeight : Handle
  encryptedVolume : Handle
  deadline : Nat
  biddingEndTime : Nat
  shipper : Address
  status : JobStatus
  encryptedFinalPrice : Handle
  revealedFinalPrice : Nat
  isPriceRevealed : Bool
  isUrgent : Handle
  urgentRevealed : Bool
  createdAt : Nat
deriving DecidableEq, Repr

/-- The all-zero record a Solidity mapping returns for an absent job. -/
def FreightJob.empty : FreightJob :=
  { origin := "", destination := "", cargoType := "",
    encryptedWeight := 0, encryptedVolume := 0, deadline := 0,
    biddingEndTime := 0, shipper := 0, status := .Open,
    encryptedFinalPrice := 0, revealedFinalPrice := 0,
    isPriceRevealed := false, isUrgent := 0, urgentRevealed := false,
    createdAt := 0 }

/-- `struct Bid`. -/
structure Bid where
  encryptedPrice : Handle
  encryptedDeliveryDays : Handle
  encryptedReliabilityScore : Handle
  isExpressService : Handle
  hasSubmitted : Bool
  isRevealed : Bool
  revealedPrice : Nat
  revealedDeliveryDays : Nat
  revealedReliability : Nat
  revealedExpress : Bool
  timestamp : Nat
  evaluationStatus : BidEvaluationStatus
  carrier : Address
deriving DecidableEq, Repr

/-- The all-zero record a Solidity mapping returns for an absent bid. -/
def Bid.empty : Bid :=
  { encryptedPrice := 0, encryptedDeliveryDays := 0,
    encryptedReliabilityScore := 0, isExpressService := 0,
    hasSubmitted := false, isRevealed := false, revealedPrice := 0,
    revealedDeliveryDays := 0, revealedReliability := 0,
    revealedExpress := false, timestamp := 0,
    evaluationStatus := .Pending, carrier := 0 }

/-- `struct CarrierProfile`. -/
structure CarrierProfile where
  isVerified : Bool
  totalBids : Nat
  wonBids : Nat
  completedJobs : Nat
  encryptedRating : Handle
  joinedAt : Nat
  isActive : Bool
deriving DecidableEq, Repr

/-- The all-zero record for an unregistered carrier. -/
def CarrierProfile.empty : CarrierProfile :=
  { isVerified := false, totalBids := 0, wonBids := 0, completedJobs := 0,
    encryptedRating := 0, joinedAt := 0, isActive := false }

/-- `struct ShipperProfile`. -/
structure ShipperProfile where
  isVerified : Bool
  totalJobsPosted : Nat
  totalJobsCompleted : Nat
  joinedAt : Nat
  isActive : Bool
deriving DecidableEq, Repr

/-- The all-zero record for an unregistered shipper. -/
def ShipperProfile.empty : ShipperProfile :=
  { isVerified := false, totalJobsPosted := 0, totalJobsCompleted := 0,
    joinedAt := 0, isActive := false }

/-- One `require` reason per revert string of the contract (plus the
`onlyGateway` modifier inherited from the Gateway base contract). -/
inductive FbError where
  | notOwner | notPauser | contractIsPaused | contractNotPaused
  | notVerifiedShipper | shipperNotActive
  | notVerifiedCarrier | carrierNotActive
  | invalidJobId | notJobShipper | invalidJobStatus
  | invalidCarrierAddress | carrierAlreadyVerified
  | invalidShipperAddress | shipperAlreadyVerified
  | carrierNotVerified | carrierAlreadyInactive
  | shipperNotVerified | shipperAlreadyInactive
  | invalidPauserAddress
  | originEmpty | destinationEmpty | invalidBiddingDuration
  | biddingPeriodEnded | bidAlreadySubmitted | shipperCannotBidOwnJob
  | noBidsSubmitted
  | noBidFromCarrier | bidAlreadyRevealed | biddingStillActive
  | notGateway | invalidCallbackType | noBidFound
  | biddingNotClosed | bidNotRevealed | jobNotAwarded
  | cannotCancelAwardedOrCompleted
deriving DecidableEq, Repr

/-- The whole contract storage, together with the modelled FHE ciphertext
store and the Gateway's request-id source. -/
structure EngineState where
  owner : Address
  pauser : Address
  paused : Bool
  jobCounter : Nat
  totalBidsSubmitted : Nat
  totalJobsCompleted : Nat
  totalActiveCarriers : Nat
  freightJobs : Nat → FreightJob
  jobBids : Nat → Address → Bid
  jobBidders : Nat → List Address
  jobWinners : Nat → Address
  carrierProfiles : Address → CarrierProfile
  shipperProfiles : Address → ShipperProfile
  callbackJobIds : Nat → Nat
  callbackCarriers : Nat → Address
  callbackTypes : Nat → CallbackType
  fheVal : Handle → Nat
  fheAcl : Handle → List Grantee
  nextHandle : Handle
  nextRequestId : Nat
  gatewayAddr : Address

/-- The transaction context: `msg.sender` and `block.timestamp`. -/
structure Ctx where
  sender : Address
  now : Nat
deriving DecidableEq, Repr

/-- Pointwise update of a mapping at one key. -/
def updFn [DecidableEq α] (f : α → β) (x : α) (v : β) : α → β :=
  fun y => if y = x then v else f y

/-- Pointwise update of a two-key mapping at one key pair. -/
def updFn2 [DecidableEq α] [DecidableEq γ] (f : α → γ → β) (x : α) (z : γ)
    (v : β) : α → γ → β :=
  fun y w => if y = x ∧ w = z then v else f y w

/-- `require(cond, err)`. -/
def req (c : Prop) [Decidable c] (e : FbError) : Except FbError Unit :=
  if c then .ok () else .error e

/-- `FHE.asEuint64` / `FHE.asEuint32` / `FHE.asEbool` / trivial encryption of
a constant: allocates a fresh handle holding the given plaintext. -/
def fheAlloc (s : EngineState) (v : Nat) : Handle × EngineState :=
  (s.nextHandle,
   { s with nextHandle := s.nextHandle + 1,
            fheVal := updFn s.fheVal s.nextHandle v })

/-- `FHE.allow h a` / `FHE.allowThis h`: extend the handle's ACL. -/
def fheAllow (s : EngineState) (h : Handle) (g : Grantee) : EngineState :=
  { s with fheAcl := updFn s.fheAcl h (g :: s.fheAcl h) }

/-- `1 hours` in seconds. -/
def oneHour : Nat := 3600

/-- `7 days` in seconds. -/
def sevenDays : Nat := 604800

/-- `30 days` in seconds. -/
def thirtyDays : Nat := 2592000

/-- The constructor: deployer becomes owner and pauser; all counters zero.
The gateway trust anchor of the inherited Gateway base is a parameter. -/
def initState (deployer gateway : Address) : EngineState :=
  { owner := deployer, pauser := deployer, paused := false,
    jobCounter := 0, totalBidsSubmitted := 0, totalJobsCompleted := 0,
    totalActiveCarriers := 0,
    freightJobs := fun _ => FreightJob.empty,
    jobBids := fun _ _ => Bid.empty,
    jobBidders := fun _ => [],
    jobWinners := fun _ => 0,
    carrierProfiles := fun _ => CarrierProfile.empty,
    shipperProfiles := fun _ => ShipperProfile.empty,
    callbackJobIds := fun _ => 0,
    callbackCarriers := fun _ => 0,
    callbackTypes := fun _ => .RevealJobPrice,
    fheVal := fun _ => 0,
    fheAcl := fun _ => [],
    nextHandle := 1, nextRequestId := 1, gatewayAddr := gateway }

/-- `verifyCarrier` (`onlyOwner whenNotPaused`): registers a fresh verified,
active carrier profile (with a freshly encrypted rating of 100) and bumps
`totalActiveCarriers`.  Note the only duplicate check is against the carrier
role itself. -/
def verifyCarrier (ctx : Ctx) (carrier : Address) (s : EngineState) :
    Except FbError EngineState := do
  req (ctx.sender = s.owner) .notOwner
  req (s.paused = false) .contractIsPaused
  req (carrier ≠ 0) .invalidCarrierAddress
  req ((s.carrierProfiles carrier).isVerified = false) .carrierAlreadyVerified
  let s := { s with totalActiveCarriers := s.totalActiveCarriers + 1 }
  let (rating, s) := fheAlloc s 100
  let profile : CarrierProfile :=
    { isVerified := true, totalBids := 0, wonBids := 0, completedJobs := 0,
      encryptedRating := rating, joinedAt := ctx.now, isActive := true }
  pure { s with carrierProfiles := updFn s.carrierProfiles carrier profile }

/-- `verifyShipper` (`onlyOwner whenNotPaused`): registers a fresh verified,
active shipper profile.  The only duplicate check is against the shipper
role itself. -/
def verifyShipper (ctx : Ctx) (shipper : Address) (s : EngineState) :
    Except FbError EngineState := do
  req (ctx.sender = s.owner) .notOwner
  req (s.paused = false) .contractIsPaused
  req (shipper ≠ 0) .invalidShipperAddress
  req ((s.shipperProfiles shipper).isVerified = false) .shipperAlreadyVerified
  let profile : ShipperProfile :=
    { isVerified := true, totalJobsPosted := 0, totalJobsCompleted := 0,
      joinedAt := ctx.now, isActive := true }
  pure { s with shipperProfiles := updFn s.shipperProfiles shipper profile }

/-- `deactivateCarrier` (`onlyOwner`, not pause-gated): clears the activity
flag and decrements `totalActiveCarriers`. -/
def deactivateCarrier (ctx : Ctx) (carrier : Address) (s : EngineState) :
    Except FbError EngineState := do
  req (ctx.sender = s.owner) .notOwner
  req ((s.carrierProfiles carrier).isVerified = true) .carrierNotVerified
  req ((s.carrierProfiles carrier).isActive = true) .carrierAlreadyInactive
  let profile := { s.carrierProfiles carrier with isActive := false }
  pure { s with
    carrierProfiles := updFn s.carrierProfiles carrier profile,
    totalActiveCarriers := s.totalActiveCarriers - 1 }

/-- `deactivateShipper` (`onlyOwner`, not pause-gated): clears the activity
flag. -/
def deactivateShipper (ctx : Ctx) (shipper : Address) (s : EngineState) :
    Except FbError EngineState := do
  req (ctx.sender = s.owner) .notOwner
  req ((s.shipperProfiles shipper).isVerified = true) .shipperNotVerified
  req ((s.shipperProfiles shipper).isActive = true) .shipperAlreadyInactive
  let profile := { s.shipperProfiles shipper with isActive := false }
  pure { s with shipperProfiles := updFn s.shipperProfiles shipper profile }

/-- `setPauser` (`onlyOwner`, not pause-gated). -/
def setPauser (ctx : Ctx) (newPauser : Address) (s : EngineState) :
    Except FbError EngineState := do
  req (ctx.sender = s.owner) .notOwner
  req (newPauser ≠ 0) .invalidPauserAddress
  pure { s with pauser := newPauser }

/-- `pause` (`onlyPauser whenNotPaused`). -/
def pause (ctx : Ctx) (s : EngineState) : Except FbError EngineState := do
  req (ctx.sender = s.pauser ∨ ctx.sender = s.owner) .notPauser
  req (s.paused = false) .contractIsPaused
  pure { s with paused := true }

/-- `unpause` (`onlyPauser whenPaused`). -/
def unpause (ctx : Ctx) (s : EngineState) : Except FbError EngineState := do
  req (ctx.sender = s.pauser ∨ ctx.sender = s.owner) .notPauser
  req (s.paused = true) .contractNotPaused
  pure { s with paused := false }

/-- `postJob` (`onlyVerifiedShipper whenNotPaused`): validates the strings
and the bidding duration, allocates the job id, verifies the three encrypted
inputs (modelled as their plaintexts), stores the job, grants ACL on the
three inputs to the contract and the shipper, bumps the shipper's
posted-jobs counter, and returns the new job id. -/
def postJob (ctx : Ctx) (origin destination cargoType : String)
    (encWeight encVolume encUrgent : Nat) (biddingDuration : Nat)
    (s : EngineState) : Except FbError (Nat × EngineState) := do
  req ((s.shipperProfiles ctx.sender).isVerified = true) .notVerifiedShipper
  req ((s.shipperProfiles ctx.sender).isActive = true) .shipperNotActive
  req (s.paused = false) .contractIsPaused
  req (origin.length > 0) .originEmpty
  req (destination.length > 0) .destinationEmpty
  req (biddingDuration ≥ oneHour ∧ biddingDuration ≤ sevenDays)
    .invalidBiddingDuration
  let jobId := s.jobCounter + 1
  let s := { s with jobCounter := jobId }
  let (weight, s) := fheAlloc s encWeight
  let (volume, s) := fheAlloc s encVolume
  let (urgent, s) := fheAlloc s encUrgent
  let (finalPrice, s) := fheAlloc s 0
  let job : FreightJob :=
    { origin := origin, destination := destination, cargoType := cargoType,
      encryptedWeight := weight, encryptedVolume := volume,
      deadline := ctx.now + thirtyDays,
      biddingEndTime := ctx.now + biddingDuration,
      shipper := ctx.sender, status := .Open,
      encryptedFinalPrice := finalPrice, revealedFinalPrice := 0,
      isPriceRevealed := false, isUrgent := urgent,
      urgentRevealed := false, createdAt := ctx.now }
  let s := { s with freightJobs := updFn s.freightJobs jobId job }
  let s := fheAllow s weight .contract
  let s := fheAllow s volume .contract
  let s := fheAllow s urgent .contract
  let s := fheAllow s weight (.acct ctx.sender)
  let s := fheAllow s volume (.acct ctx.sender)
  let s := fheAllow s urgent (.acct ctx.sender)
  let sp := { s.shipperProfiles ctx.sender with
              totalJobsPosted := (s.shipperProfiles ctx.sender).totalJobsPosted + 1 }
  let s := { s with shipperProfiles := updFn s.shipperProfiles ctx.sender sp }
  pure (jobId, s)

/-- `submitBid` (`validJobId onlyVerifiedCarrier whenNotPaused
jobInStatus(Open)` plus the body requires): stores the carrier's bid,
appends the carrier to the job's bidder list, grants ACL on the four
encrypted fields to the contract and to the job's shipper, and bumps the
bid counters. -/
def submitBid (ctx : Ctx) (jobId : Nat)
    (encPrice encDeliveryDays encReliability encExpress : Nat)
    (s : EngineState) : Except FbError EngineState := do
  req (jobId > 0 ∧ jobId ≤ s.jobCounter) .invalidJobId
  req ((s.carrierProfiles ctx.sender).isVerified = true) .notVerifiedCarrier
  req ((s.carrierProfiles ctx.sender).isActive = true) .carrierNotActive
  req (s.paused = false) .contractIsPaused
  req ((s.freightJobs jobId).status = .Open) .invalidJobStatus
  req (ctx.now < (s.freightJobs jobId).biddingEndTime) .biddingPeriodEnded
  req ((s.jobBids jobId ctx.sender).hasSubmitted = false) .bidAlreadySubmitted
  req (ctx.sender ≠ (s.freightJobs jobId).shipper) .shipperCannotBidOwnJob
  let (price, s) := fheAlloc s encPrice
  let (deliveryDays, s) := fheAlloc s encDeliveryDays
  let (reliability, s) := fheAlloc s encReliability
  let (isExpress, s) := fheAlloc s encExpress
  let bid : Bid :=
    { encryptedPrice := price, encryptedDeliveryDays := deliveryDays,
      encryptedReliabilityScore := reliability,
      isExpressService := isExpress, hasSubmitted := true,
      isRevealed := false, revealedPrice := 0, revealedDeliveryDays := 0,
      revealedReliability := 0, revealedExpress := false,
      timestamp := ctx.now, evaluationStatus := .Pending,
      carrier := ctx.sender }
  let s := { s with jobBids := updFn2 s.jobBids jobId ctx.sender bid }
  let bidders := s.jobBidders jobId ++ [ctx.sender]
  let s := { s with jobBidders := updFn s.jobBidders jobId bidders }
  let s := fheAllow s price .contract
  let s := fheAllow s deliveryDays .contract
  let s := fheAllow s reliability .contract
  let s := fheAllow s isExpress .contract
  let shipper := (s.freightJobs jobId).shipper
  let s := fheAllow s price (.acct shipper)
  let s := fheAllow s deliveryDays (.acct shipper)
  let s := fheAllow s reliability (.acct shipper)
  let s := fheAllow s isExpress (.acct shipper)
  let cp := { s.carrierProfiles ctx.sender with
              totalBids := (s.carrierProfiles ctx.sender).totalBids + 1 }
  let s := { s with carrierProfiles := updFn s.carrierProfiles ctx.sender cp }
  pure { s with totalBidsSubmitted := s.totalBidsSubmitted + 1 }

/-- `closeBidding` (`validJobId onlyJobShipper jobInStatus(Open)
whenNotPaused`): requires at least one bid and transitions to
`BiddingClosed`. -/
def closeBidding (ctx : Ctx) (jobId : Nat) (s : EngineState) :
    Except FbError EngineState := do
  req (jobId > 0 ∧ jobId ≤ s.jobCounter) .invalidJobId
  req ((s.freightJobs jobId).shipper = ctx.sender) .notJobShipper
  req ((s.freightJobs jobId).status = .Open) .invalidJobStatus
  req (s.paused = false) .contractIsPaused
  req ((s.jobBidders jobId).length > 0) .noBidsSubmitted
  let job := { s.freightJobs jobId with status := JobStatus.BiddingClosed }
  pure { s with freightJobs := updFn s.freightJobs jobId job }

/-- `requestBidPriceReveal` (`validJobId onlyJobShipper whenNotPaused`):
requires a submitted, not-yet-revealed bid and bidding closed (by status or
by clock), issues a Gateway decryption request (modelled as drawing the next
request id) and records the request-id → (job, carrier, kind) triple.
There is no check against an already-pending request for the same bid. -/
def requestBidPriceReveal (ctx : Ctx) (jobId : Nat) (carrier : Address)
    (s : EngineState) : Except FbError (Nat × EngineState) := do
  req (jobId > 0 ∧ jobId ≤ s.jobCounter) .invalidJobId
  req ((s.freightJobs jobId).shipper = ctx.sender) .notJobShipper
  req (s.paused = false) .contractIsPaused
  req ((s.jobBids jobId carrier).hasSubmitted = true) .noBidFromCarrier
  req ((s.jobBids jobId carrier).isRevealed = false) .bidAlreadyRevealed
  req ((s.freightJobs jobId).status = .BiddingClosed ∨
       ctx.now ≥ (s.freightJobs jobId).biddingEndTime) .biddingStillActive
  let requestId := s.nextRequestId
  let s := { s with nextRequestId := s.nextRequestId + 1 }
  let s := { s with callbackJobIds := updFn s.callbackJobIds requestId jobId }
  let s := { s with callbackCarriers := updFn s.callbackCarriers requestId carrier }
  let s := { s with callbackTypes := updFn s.callbackTypes requestId .RevealBidPrice }
  pure (requestId, s)

/-- `callbackBidPriceReveal` (`onlyGateway`): applies the oracle's plaintext
to the matching bid, marks it revealed and `UnderReview`, then deletes the
three request-tracking entries (a deleted Solidity mapping entry decays to
the zero value, so `callbackTypes` decays to `RevealJobPrice`). -/
def callbackBidPriceReveal (ctx : Ctx) (requestId : Nat)
    (decryptedPrice : Nat) (s : EngineState) :
    Except FbError EngineState := do
  req (ctx.sender = s.gatewayAddr) .notGateway
  req (s.callbackTypes requestId = .RevealBidPrice) .invalidCallbackType
  let jobId := s.callbackJobIds requestId
  let carrier := s.callbackCarriers requestId
  req ((s.jobBids jobId carrier).hasSubmitted = true) .noBidFound
  let bid := { s.jobBids jobId carrier with
               isRevealed := true, revealedPrice := decryptedPrice,
               evaluationStatus := BidEvaluationStatus.UnderReview }
  let s := { s with jobBids := updFn2 s.jobBids jobId carrier bid }
  let s := { s with callbackJobIds := updFn s.callbackJobIds requestId 0 }
  let s := { s with callbackCarriers := updFn s.callbackCarriers requestId 0 }
  let s := { s with callbackTypes := updFn s.callbackTypes requestId .RevealJobPrice }
  pure s

/-- `awardJob` (`validJobId onlyJobShipper whenNotPaused`): requires
`BiddingClosed` and a submitted, revealed bid from the named carrier;
transitions to `Awarded`, copies the bid's encrypted and revealed price onto
the job, records the winner, marks the bid `Approved` and bumps the
carrier's won-bids counter. -/
def awardJob (ctx : Ctx) (jobId : Nat) (carrier : Address)
    (s : EngineState) : Except FbError EngineState := do
  req (jobId > 0 ∧ jobId ≤ s.jobCounter) .invalidJobId
  req ((s.freightJobs jobId).shipper = ctx.sender) .notJobShipper
  req (s.paused = false) .contractIsPaused
  req ((s.freightJobs jobId).status = .BiddingClosed) .biddingNotClosed
  req ((s.jobBids jobId carrier).hasSubmitted = true) .noBidFromCarrier
  req ((s.jobBids jobId carrier).isRevealed = true) .bidNotRevealed
  let job := { s.freightJobs jobId with
               status := JobStatus.Awarded,
               encryptedFinalPrice := (s.jobBids jobId carrier).encryptedPrice,
               revealedFinalPrice := (s.jobBids jobId carrier).revealedPrice,
               isPriceRevealed := true }
  let s := { s with freightJobs := updFn s.freightJobs jobId job }
  let s := { s with jobWinners := updFn s.jobWinners jobId carrier }
  let bid := { s.jobBids jobId carrier with
               evaluationStatus := BidEvaluationStatus.Approved }
  let s := { s with jobBids := updFn2 s.jobBids jobId carrier bid }
  let cp := { s.carrierProfiles carrier with
              wonBids := (s.carrierProfiles carrier).wonBids + 1 }
  pure { s with carrierProfiles := updFn s.carrierProfiles carrier cp }

/-- `completeJob` (`validJobId onlyJobShipper whenNotPaused`): requires
`Awarded`; transitions to `Completed` and bumps both parties' completion
counters. -/
def completeJob (ctx : Ctx) (jobId : Nat) (s : EngineState) :
    Except FbError EngineState := do
  req (jobId > 0 ∧ jobId ≤ s.jobCounter) .invalidJobId
  req ((s.freightJobs jobId).shipper = ctx.sender) .notJobShipper
  req (s.paused = false) .contractIsPaused
  req ((s.freightJobs jobId).status = .Awarded) .jobNotAwarded
  let job := { s.freightJobs jobId with status := JobStatus.Completed }
  let s := { s with freightJobs := updFn s.freightJobs jobId job }
  let winner := s.jobWinners jobId
  let cp := { s.carrierProfiles winner with
              completedJobs := (s.carrierProfiles winner).completedJobs + 1 }
  let s := { s with carrierProfiles := updFn s.carrierProfiles winner cp }
  let sp := { s.shipperProfiles ctx.sender with
              totalJobsCompleted := (s.shipperProfiles ctx.sender).totalJobsCompleted + 1 }
  let s := { s with shipperProfiles := updFn s.shipperProfiles ctx.sender sp }
  pure { s with totalJobsCompleted := s.totalJobsCompleted + 1 }

/-- `cancelJob` (`validJobId onlyJobShipper whenNotPaused`): requires `Open`
or `BiddingClosed`; transitions to `Cancelled`. -/
def cancelJob (ctx : Ctx) (jobId : Nat) (s : EngineState) :
    Except FbError EngineState := do
  req (jobId > 0 ∧ jobId ≤ s.jobCounter) .invalidJobId
  req ((s.freightJobs jobId).shipper = ctx.sender) .notJobShipper
  req (s.paused = false) .contractIsPaused
  req ((s.freightJobs jobId).status = .Open ∨
       (s.freightJobs jobId).status = .BiddingClosed)
    .cannotCancelAwardedOrCompleted
  let job := { s.freightJobs jobId with status := JobStatus.Cancelled }
  pure { s with freightJobs := updFn s.freightJobs jobId job }

/-- `allowBidAccess` (`validJobId onlyJobShipper`, not pause-gated): the
job's shipper extends the ACL of all four encrypted fields of the named
carrier's bid to an arbitrary further address. -/
def allowBidAccess (ctx : Ctx) (jobId : Nat) (carrier allowedAddress : Address)
    (s : EngineState) : Except FbError EngineState := do
  req (jobId > 0 ∧ jobId ≤ s.jobCounter) .invalidJobId
  req ((s.freightJobs jobId).shipper = ctx.sender) .notJobShipper
  req ((s.jobBids jobId carrier).hasSubmitted = true) .noBidFromCarrier
  let bid := s.jobBids jobId carrier
  let s := fheAllow s bid.encryptedPrice (.acct allowedAddress)
  let s := fheAllow s bid.encryptedDeliveryDays (.acct allowedAddress)
  let s := fheAllow s bid.encryptedReliabilityScore (.acct allowedAddress)
  let s := fheAllow s bid.isExpressService (.acct allowedAddress)
  pure s

/-- One external transaction against the contract (its arguments, without
the context). -/
inductive Op where
  | verifyCarrier (carrier : Address)
  | verifyShipper (shipper : Address)
  | deactivateCarrier (carrier : Address)
  | deactivateShipper (shipper : Address)
  | setPauser (newPauser : Address)
  | pause
  | unpause
  | postJob (origin destination cargoType : String)
      (encWeight encVolume encUrgent biddingDuration : Nat)
  | submitBid (jobId encPrice encDeliveryDays encReliability encExpress : Nat)
  | closeBidding (jobId : Nat)
  | requestBidPriceReveal (jobId : Nat) (carrier : Address)
  | callbackBidPriceReveal (requestId decryptedPrice : Nat)
  | awardJob (jobId : Nat) (carrier : Address)
  | completeJob (jobId : Nat)
  | cancelJob (jobId : Nat)
  | allowBidAccess (jobId : Nat) (carrier allowedAddress : Address)

/-- Run one transaction: a revert (`Except.error`) leaves the state
unchanged. -/
def applyOp (ctx : Ctx) (op : Op) (s : EngineState) : EngineState :=
  match op with
  | .verifyCarrier c => (verifyCarrier ctx c s).toOption.getD s
  | .verifyShipper a => (verifyShipper ctx a s).toOption.getD s
  | .deactivateCarrier c => (deactivateCarrier ctx c s).toOption.getD s
  | .deactivateShipper a => (deactivateShipper ctx a s).toOption.getD s
  | .setPauser p => (setPauser ctx p s).toOption.getD s
  | .pause => (pause ctx s).toOption.getD s
  | .unpause => (unpause ctx s).toOption.getD s
  | .postJob o d c w v u dur =>
      ((postJob ctx o d c w v u dur s).map Prod.snd).toOption.getD s
  | .submitBid j p dd r e => (submitBid ctx j p dd r e s).toOption.getD s
  | .closeBidding j => (closeBidding ctx j s).toOption.getD s
  | .requestBidPriceReveal j c =>
      ((requestBidPriceReveal ctx j c s).map Prod.snd).toOption.getD s
  | .callbackBidPriceReveal rid p =>
      (callbackBidPriceReveal ctx rid p s).toOption.getD s
  | .awardJob j c => (awardJob ctx j c s).toOption.getD s
  | .completeJob j => (completeJob ctx j s).toOption.getD s
  | .cancelJob j => (cancelJob ctx j s).toOption.getD s
  | .allowBidAccess j c a => (allowBidAccess ctx j c a s).toOption.getD s

/-- Run a list of transactions in order. -/
def execTrace (s : EngineState) : List (Ctx × Op) → EngineState
  | [] => s
  | t :: rest => execTrace (applyOp t.1 t.2 s) rest

/-- The states the deployed contract can actually be in: everything
obtainable from the constructor state by a sequence of transactions. -/
def Reachable (s : EngineState) : Prop :=
  ∃ (deployer gateway : Address) (tr : List (Ctx × Op)),
    s = execTrace (initState deployer gateway) tr

/-- Whether a call succeeded (did not revert). -/
def exceptOk : Except FbError α → Bool
  | .ok _ => true
  | .error _ => false

/-- A concrete run: the owner (account 1, gateway 2) verifies shipper 10 and
carriers 20 and 21; shipper 10 posts job 1 with a one-hour bidding window at
time 1000; carrier 20 bids at time 2000; the shipper closes bidding, requests
a reveal of carrier 20's bid price (request id 1), and the gateway calls back
with plaintext 4800. -/
def demoTrace : List (Ctx × Op) :=
  [(⟨1, 100⟩, .verifyShipper 10),
   (⟨1, 100⟩, .verifyCarrier 20),
   (⟨1, 100⟩, .verifyCarrier 21),
   (⟨10, 1000⟩, .postJob "A" "B" "C" 900 40 1 3600),
   (⟨20, 2000⟩, .submitBid 1 4800 5 80 1),
   (⟨10, 5000⟩, .closeBidding 1),
   (⟨10, 5000⟩, .requestBidPriceReveal 1 20),
   (⟨2, 5100⟩, .callbackBidPriceReveal 1 4800)]

/-- After registration: shipper 10, carriers 20 and 21 verified. -/
def sReg : EngineState := execTrace (initState 1 2) (demoTrace.take 3)

/-- After `postJob`: job 1 open, bidding ends at 4600. -/
def sJob : EngineState := execTrace (initState 1 2) (demoTrace.take 4)

/-- After carrier 20's `submitBid` on job 1. -/
def sBid : EngineState := execTrace (initState 1 2) (demoTrace.take 5)

/-- After `closeBidding` on job 1. -/
def sClosed : EngineState := execTrace (initState 1 2) (demoTrace.take 6)

/-- After `requestBidPriceReveal(1, 20)`: request id 1 pending. -/
def sReq : EngineState := execTrace (initState 1 2) (demoTrace.take 7)

/-- After the gateway callback: carrier 20's bid revealed at 4800. -/
def sRevealed : EngineState := execTrace (initState 1 2) demoTrace

/-- `sRevealed` with the circuit breaker then engaged by the owner. -/
def sPausedAward : EngineState :=
  execTrace (initState 1 2) (demoTrace ++ [(⟨1, 5200⟩, .pause)])

/-- `sReq` with the circuit breaker then engaged by the owner: a pending
reveal request in a paused engine. -/
def sReqPaused : EngineState :=
  execTrace (initState 1 2) (demoTrace.take 7 ++ [(⟨1, 5150⟩, .pause)])

/-- C1: once a request id registered by `requestBidPriceReveal` has been
consumed by one successful `callbackBidPriceReveal`, the plaintext is written
to the bid's revealed-price slot, and a second callback with the same request
id reverts (the deleted `callbackTypes` entry no longer matches
`RevealBidPrice`), leaving the state unchanged. -/
theorem C1_callback_consumed_once (ctx ctx2 : Ctx) (s s2 : EngineState)
    (rid p p2 : Nat)
    (h1 : callbackBidPriceReveal ctx rid p s = .ok s2) :
    ((s2.jobBids (s.callbackJobIds rid) (s.callbackCarriers rid)).revealedPrice = p ∧
     (s2.jobBids (s.callbackJobIds rid) (s.callbackCarriers rid)).isRevealed = true) ∧
    (∃ e, callbackBidPriceReveal ctx2 rid p2 s2 = .error e) ∧
    applyOp ctx2 (.callbackBidPriceReveal rid p2) s2 = s2 := by
  simp only [callbackBidPriceReveal, req, bind, Except.bind, pure, Except.pure] at h1
  split_ifs at h1 with hg ht hb
  all_goals simp at h1
  subst h1
  have h3 : ∃ e, callbackBidPriceReveal ctx2 rid p2
      ({ s with
         jobBids := updFn2 s.jobBids (s.callbackJobIds rid) (s.callbackCarriers rid)
           ({ s.jobBids (s.callbackJobIds rid) (s.callbackCarriers rid) with
              isRevealed := true, revealedPrice := p,
              evaluationStatus := BidEvaluationStatus.UnderReview }),
         callbackJobIds := updFn s.callbackJobIds rid 0,
         callbackCarriers := updFn s.callbackCarriers rid 0,
         callbackTypes := updFn s.callbackTypes rid .RevealJobPrice }) = .error e := by
    by_cases hg2 : ctx2.sender = s.gatewayAddr
    · exact ⟨.invalidCallbackType,
        by simp [callbackBidPriceReveal, req, bind, Except.bind, hg2, updFn]⟩
    · exact ⟨.notGateway,
        by simp [callbackBidPriceReveal, req, bind, Except.bind, hg2]⟩
  obtain ⟨e, he⟩ := h3
  refine ⟨⟨by simp [updFn2], by simp [updFn2]⟩, ⟨e, he⟩, ?_⟩
  simp [applyOp, he, Except.toOption]

/-- Witness for C1 at the concrete demo run: request id 1 was registered,
consumed once with plaintext 4800, and a second callback reverts. -/
theorem C1_witness :
    ((sRevealed.jobBids (sReq.callbackJobIds 1) (sReq.callbackCarriers 1)).revealedPrice = 4800 ∧
     (sRevealed.jobBids (sReq.callbackJobIds 1) (sReq.callbackCarriers 1)).isRevealed = true) ∧
    (∃ e, callbackBidPriceReveal ⟨2, 6000⟩ 1 9999 sRevealed = .error e) ∧
    applyOp ⟨2, 6000⟩ (.callbackBidPriceReveal 1 9999) sRevealed = sRevealed :=
  C1_callback_consumed_once ⟨2, 5100⟩ ⟨2, 6000⟩ sReq sRevealed 1 4800 9999 rfl

/-- `exceptOk` through one `require`: the call can only succeed when the
condition holds. -/
theorem exceptOk_req_bind (c : Prop) [Decidable c] (e : FbError)
    (f : Unit → Except FbError α) :
    exceptOk (req c e >>= f) = if c then exceptOk (f ()) else false := by
  by_cases hc : c <;> simp [req, hc, bind, Except.bind, exceptOk]

/-- C2 (amended): while the circuit breaker is engaged, `postJob`,
`submitBid`, `awardJob`, `closeBidding`, `requestBidPriceReveal`,
`completeJob`, `cancelJob`, `verifyCarrier`, `verifyShipper` and `pause`
all revert, and `unpause` by the pauser succeeds and restores normal
operation.  (The oracle callback and the deactivation/`setPauser`
operations are not gated by the pause flag; see the counterexample.) -/
theorem C2_paused_blocks (s : EngineState) (hp : s.paused = true) :
    (∀ ctx o d c w v u dur, exceptOk (postJob ctx o d c w v u dur s) = false) ∧
    (∀ ctx j p dd r e, exceptOk (submitBid ctx j p dd r e s) = false) ∧
    (∀ ctx j c, exceptOk (awardJob ctx j c s) = false) ∧
    (∀ ctx j, exceptOk (closeBidding ctx j s) = false) ∧
    (∀ ctx j c, exceptOk (requestBidPriceReveal ctx j c s) = false) ∧
    (∀ ctx j, exceptOk (completeJob ctx j s) = false) ∧
    (∀ ctx j, exceptOk (cancelJob ctx j s) = false) ∧
    (∀ ctx c, exceptOk (verifyCarrier ctx c s) = false) ∧
    (∀ ctx a, exceptOk (verifyShipper ctx a s) = false) ∧
    (∀ ctx, exceptOk (pause ctx s) = false) ∧
    (∀ ctx, ctx.sender = s.pauser →
      ∃ s2, unpause ctx s = .ok s2 ∧ s2.paused = false) := by
  refine ⟨?_, ?_, ?_, ?_, ?_, ?_, ?_, ?_, ?_, ?_, ?_⟩
  · intro ctx o d c w v u dur
    simp [postJob, exceptOk_req_bind, hp]
  · intro ctx j p dd r e
    simp [submitBid, exceptOk_req_bind, hp]
  · intro ctx j c
    simp [awardJob, exceptOk_req_bind, hp]
  · intro ctx j
    simp [closeBidding, exceptOk_req_bind, hp]
  · intro ctx j c
    simp [requestBidPriceReveal, exceptOk_req_bind, hp]
  · intro ctx j
    simp [completeJob, exceptOk_req_bind, hp]
  · intro ctx j
    simp [cancelJob, exceptOk_req_bind, hp]
  · intro ctx c
    simp [verifyCarrier, exceptOk_req_bind, hp]
  · intro ctx a
    simp [verifyShipper, exceptOk_req_bind, hp]
  · intro ctx
    by_cases h1 : ctx.sender = s.pauser ∨ ctx.sender = s.owner <;>
      simp [pause, req, h1, hp, bind, Except.bind, Functor.map, Except.map, exceptOk]
  · intro ctx hctx
    refine ⟨{ s with paused := false }, ?_, rfl⟩
    simp [unpause, req, bind, Except.bind, hctx, hp, pure, Except.pure]

/-- C2 counterexample: the claim says the oracle callback fails fast while
paused; in `sReqPaused` the engine is paused with request id 1 pending, yet
the gateway's `callbackBidPriceReveal` succeeds and mutates the bid
(`callbackBidPriceReveal` carries no `whenNotPaused` modifier; neither do
`deactivateCarrier`, `deactivateShipper`, `setPauser` or `allowBidAccess`). -/
theorem C2_counterexample :
    sReqPaused.paused = true ∧
    exceptOk (callbackBidPriceReveal ⟨2, 5300⟩ 1 4800 sReqPaused) = true ∧
    ((applyOp ⟨2, 5300⟩ (.callbackBidPriceReveal 1 4800) sReqPaused).jobBids 1 20).isRevealed
      = true := by
  refine ⟨by decide, by decide, by decide⟩

/-- Witness for C2 at the paused demo state: all gated calls revert and
`unpause` by the owner/pauser restores operation. -/
theorem C2_witness :
    (∀ ctx o d c w v u dur, exceptOk (postJob ctx o d c w v u dur sPausedAward) = false) ∧
    (∀ ctx j p dd r e, exceptOk (submitBid ctx j p dd r e sPausedAward) = false) ∧
    (∀ ctx j c, exceptOk (awardJob ctx j c sPausedAward) = false) ∧
    (∀ ctx j, exceptOk (closeBidding ctx j sPausedAward) = false) ∧
    (∀ ctx j c, exceptOk (requestBidPriceReveal ctx j c sPausedAward) = false) ∧
    (∀ ctx j, exceptOk (completeJob ctx j sPausedAward) = false) ∧
    (∀ ctx j, exceptOk (cancelJob ctx j sPausedAward) = false) ∧
    (∀ ctx c, exceptOk (verifyCarrier ctx c sPausedAward) = false) ∧
    (∀ ctx a, exceptOk (verifyShipper ctx a sPausedAward) = false) ∧
    (∀ ctx, exceptOk (pause ctx sPausedAward) = false) ∧
    (∀ ctx, ctx.sender = sPausedAward.pauser →
      ∃ s2, unpause ctx sPausedAward = .ok s2 ∧ s2.paused = false) :=
  C2_paused_blocks sPausedAward (by decide)

/-- `exceptOk` ignores the result mapped over a call. -/
theorem exceptOk_map (g : α → β) (x : Except FbError α) :
    exceptOk (Functor.map g x) = exceptOk x := by
  cases x <;> rfl

/-- `exceptOk` of a bare `require`. -/
theorem exceptOk_req (c : Prop) [Decidable c] (e : FbError) :
    exceptOk (req c e) = if c then true else false := by
  by_cases hc : c <;> simp [req, hc, exceptOk]

/-- C5: `submitBid` issued at or after the job's bidding deadline reverts
(the guard is a strict `block.timestamp < biddingEndTime`), regardless of
the job still being `Open` and its overall deadline being in the future;
the revert leaves the state unchanged. -/
theorem C5_deadline_strict (ctx : Ctx) (s : EngineState)
    (jobId p dd r e : Nat)
    (h : ctx.now ≥ (s.freightJobs jobId).biddingEndTime) :
    exceptOk (submitBid ctx jobId p dd r e s) = false := by
  have h2 : ¬ (ctx.now < (s.freightJobs jobId).biddingEndTime) := not_lt.mpr h
  simp [submitBid, exceptOk_req_bind, exceptOk_map, exceptOk_req, h2]

/-- Witness for C5 at the boundary: at time 4600 (exactly job 1's bidding
deadline) the job is still `Open` and far from its overall deadline, yet
carrier 21's `submitBid` reverts. -/
theorem C5_witness :
    (sBid.freightJobs 1).status = .Open ∧
    (sBid.freightJobs 1).biddingEndTime = 4600 ∧
    (sBid.freightJobs 1).deadline = 2593000 ∧
    exceptOk (submitBid ⟨21, 4600⟩ 1 5000 6 70 0 sBid) = false :=
  ⟨by decide, by decide, by decide,
   C5_deadline_strict ⟨21, 4600⟩ sBid 1 5000 6 70 0 (by decide)⟩

/-- C4 (amended): for an allocated job id and an unpaused engine, `awardJob`
succeeds iff the caller is the job's shipper, the job is `BiddingClosed`,
and the named carrier's bid exists with its reveal flag set; on success the
job becomes `Awarded` with the bid's encrypted and revealed price as final
price, the bid is `Approved`, the winner is recorded and the carrier's
won-bids counter is incremented.  (As literally stated the equivalence also
needs the engine unpaused: see the counterexample.) -/
theorem C4_award_iff (ctx : Ctx) (s : EngineState) (jobId : Nat)
    (carrier : Address)
    (hv : jobId > 0 ∧ jobId ≤ s.jobCounter) (hp : s.paused = false) :
    (exceptOk (awardJob ctx jobId carrier s) = true ↔
      ((s.freightJobs jobId).shipper = ctx.sender ∧
       (s.freightJobs jobId).status = .BiddingClosed ∧
       (s.jobBids jobId carrier).hasSubmitted = true ∧
       (s.jobBids jobId carrier).isRevealed = true)) ∧
    (∀ s2, awardJob ctx jobId carrier s = .ok s2 →
      (s2.freightJobs jobId).status = .Awarded ∧
      (s2.freightJobs jobId).encryptedFinalPrice
        = (s.jobBids jobId carrier).encryptedPrice ∧
      (s2.freightJobs jobId).revealedFinalPrice
        = (s.jobBids jobId carrier).revealedPrice ∧
      (s2.freightJobs jobId).isPriceRevealed = true ∧
      s2.jobWinners jobId = carrier ∧
      (s2.jobBids jobId carrier).evaluationStatus = .Approved ∧
      (s2.carrierProfiles carrier).wonBids
        = (s.carrierProfiles carrier).wonBids + 1) := by
  constructor
  · by_cases h1 : (s.freightJobs jobId).shipper = ctx.sender <;>
      by_cases h2 : (s.freightJobs jobId).status = JobStatus.BiddingClosed <;>
        by_cases h3 : (s.jobBids jobId carrier).hasSubmitted = true <;>
          by_cases h4 : (s.jobBids jobId carrier).isRevealed = true <;>
            simp [awardJob, exceptOk_req_bind, exceptOk_map, exceptOk_req,
              hv.1, hv.2, hp, h1, h2, h3, h4]
  · intro s2 h
    simp only [awardJob, req, bind, Except.bind, pure, Except.pure,
      Functor.map, Except.map] at h
    split_ifs at h
    all_goals simp at h
    subst h
    refine ⟨by simp [updFn], by simp [updFn], by simp [updFn],
      by simp [updFn], by simp [updFn], by simp [updFn, updFn2],
      by simp [updFn]⟩

/-- C4 counterexample: in the paused demo state all three conditions of the
claim hold (shipper caller, `BiddingClosed`, carrier 20's bid submitted and
revealed), yet `awardJob` reverts, so the claimed equivalence is false as
stated. -/
theorem C4_counterexample :
    (sPausedAward.freightJobs 1).shipper = 10 ∧
    (sPausedAward.freightJobs 1).status = .BiddingClosed ∧
    (sPausedAward.jobBids 1 20).hasSubmitted = true ∧
    (sPausedAward.jobBids 1 20).isRevealed = true ∧
    exceptOk (awardJob ⟨10, 5300⟩ 1 20 sPausedAward) = false := by
  refine ⟨by decide, by decide, by decide, by decide, by decide⟩

/-- Witness for C4 at the revealed demo state: shipper 10 awards job 1 to
carrier 20. -/
theorem C4_witness :
    (exceptOk (awardJob ⟨10, 5200⟩ 1 20 sRevealed) = true ↔
      ((sRevealed.freightJobs 1).shipper = 10 ∧
       (sRevealed.freightJobs 1).status = .BiddingClosed ∧
       (sRevealed.jobBids 1 20).hasSubmitted = true ∧
       (sRevealed.jobBids 1 20).isRevealed = true)) ∧
    (∀ s2, awardJob ⟨10, 5200⟩ 1 20 sRevealed = .ok s2 →
      (s2.freightJobs 1).status = .Awarded ∧
      (s2.freightJobs 1).encryptedFinalPrice
        = (sRevealed.jobBids 1 20).encryptedPrice ∧
      (s2.freightJobs 1).revealedFinalPrice
        = (sRevealed.jobBids 1 20).revealedPrice ∧
      (s2.freightJobs 1).isPriceRevealed = true ∧
      s2.jobWinners 1 = 20 ∧
      (s2.jobBids 1 20).evaluationStatus = .Approved ∧
      (s2.carrierProfiles 20).wonBids
        = (sRevealed.carrierProfiles 20).wonBids + 1) :=
  C4_award_iff ⟨10, 5200⟩ sRevealed 1 20 (by decide) (by decide)

/-- C6 (amended): `requestBidPriceReveal` reverts once the carrier's bid
price has already been revealed (completed reveal), but an in-progress
reveal request for the same bid does not block a second request: the call
succeeds regardless of any pending request and registers a fresh callback
request under the next request id. -/
theorem C6_request_reveal (ctx : Ctx) (s : EngineState) (jobId : Nat)
    (carrier : Address)
    (hv : jobId > 0 ∧ jobId ≤ s.jobCounter)
    (hs : (s.freightJobs jobId).shipper = ctx.sender)
    (hp : s.paused = false)
    (hsub : (s.jobBids jobId carrier).hasSubmitted = true) :
    ((s.jobBids jobId carrier).isRevealed = true →
      requestBidPriceReveal ctx jobId carrier s = .error .bidAlreadyRevealed) ∧
    ((s.jobBids jobId carrier).isRevealed = false →
     (s.freightJobs jobId).status = .BiddingClosed →
      ∃ s2, requestBidPriceReveal ctx jobId carrier s = .ok (s.nextRequestId, s2) ∧
        s2.callbackTypes s.nextRequestId = .RevealBidPrice ∧
        s2.callbackJobIds s.nextRequestId = jobId ∧
        s2.callbackCarriers s.nextRequestId = carrier ∧
        s2.nextRequestId = s.nextRequestId + 1) := by
  constructor
  · intro hr
    simp [requestBidPriceReveal, req, bind, Except.bind, hv.1, hv.2, hs, hp,
      hsub, hr]
  · intro hr hbc
    have hmain : requestBidPriceReveal ctx jobId carrier s =
        .ok (s.nextRequestId,
          { s with nextRequestId := s.nextRequestId + 1,
                   callbackJobIds := updFn s.callbackJobIds s.nextRequestId jobId,
                   callbackCarriers := updFn s.callbackCarriers s.nextRequestId carrier,
                   callbackTypes :=
                     updFn s.callbackTypes s.nextRequestId .RevealBidPrice }) := by
      simp [requestBidPriceReveal, req, bind, Except.bind, pure, Except.pure,
        Functor.map, Except.map, hv.1, hv.2, hs, hp, hsub, hr, hbc]
    exact ⟨_, hmain, by simp [updFn], by simp [updFn], by simp [updFn], rfl⟩

/-- C6 counterexample: in `sReq` a reveal request (id 1) for carrier 20's
bid on job 1 is pending (issued, not yet called back), yet a second
`requestBidPriceReveal` for the same bid succeeds and registers a new
callback request under id 2 — the claim says it must fail with no new
registration. -/
theorem C6_counterexample :
    sReq.callbackTypes 1 = .RevealBidPrice ∧
    sReq.callbackJobIds 1 = 1 ∧
    sReq.callbackCarriers 1 = 20 ∧
    (sReq.jobBids 1 20).isRevealed = false ∧
    exceptOk (requestBidPriceReveal ⟨10, 5400⟩ 1 20 sReq) = true ∧
    (applyOp ⟨10, 5400⟩ (.requestBidPriceReveal 1 20) sReq).callbackTypes 2
      = .RevealBidPrice := by
  refine ⟨by decide, by decide, by decide, by decide, by decide, by decide⟩

/-- Witness for C6 at the pending demo state `sReq`. -/
theorem C6_witness :
    ((sReq.jobBids 1 20).isRevealed = true →
      requestBidPriceReveal ⟨10, 5400⟩ 1 20 sReq = .error .bidAlreadyRevealed) ∧
    ((sReq.jobBids 1 20).isRevealed = false →
     (sReq.freightJobs 1).status = .BiddingClosed →
      ∃ s2, requestBidPriceReveal ⟨10, 5400⟩ 1 20 sReq = .ok (sReq.nextRequestId, s2) ∧
        s2.callbackTypes sReq.nextRequestId = .RevealBidPrice ∧
        s2.callbackJobIds sReq.nextRequestId = 1 ∧
        s2.callbackCarriers sReq.nextRequestId = 20 ∧
        s2.nextRequestId = sReq.nextRequestId + 1) :=
  C6_request_reveal ⟨10, 5400⟩ sReq 1 20 (by decide) (by decide) (by decide)
    (by decide)

/-- C7 (amended): `submitBid` performs no validation of the encrypted price
value — it cannot, since the price is ciphertext.  Under the ordinary
submission preconditions a bid whose encrypted price operand encrypts 0 is
accepted and recorded like any other, with the stored price handle
decrypting to 0. -/
theorem C7_zero_price_accepted (ctx : Ctx) (s : EngineState)
    (jobId dd r ex : Nat)
    (hv : jobId > 0 ∧ jobId ≤ s.jobCounter)
    (hcv : (s.carrierProfiles ctx.sender).isVerified = true)
    (hca : (s.carrierProfiles ctx.sender).isActive = true)
    (hp : s.paused = false)
    (ho : (s.freightJobs jobId).status = .Open)
    (ht : ctx.now < (s.freightJobs jobId).biddingEndTime)
    (hns : (s.jobBids jobId ctx.sender).hasSubmitted = false)
    (hsh : ctx.sender ≠ (s.freightJobs jobId).shipper) :
    exceptOk (submitBid ctx jobId 0 dd r ex s) = true ∧
    (∀ s2, submitBid ctx jobId 0 dd r ex s = .ok s2 →
      (s2.jobBids jobId ctx.sender).hasSubmitted = true ∧
      s2.fheVal (s2.jobBids jobId ctx.sender).encryptedPrice = 0) := by
  constructor
  · simp [submitBid, exceptOk_req_bind, exceptOk_map, exceptOk_req, hv.1, hv.2,
      hcv, hca, hp, ho, ht, hns, hsh]
  · intro s2 h
    simp only [submitBid, req, bind, Except.bind, pure, Except.pure,
      Functor.map, Except.map, fheAlloc, fheAllow] at h
    split_ifs at h
    all_goals simp at h
    subst h
    constructor
    · simp [updFn, updFn2]
    · simp [updFn, updFn2, add_assoc]

/-- C7 counterexample: carrier 21 submits a bid whose encrypted price
operand encrypts 0 on the open job 1; the claim says the submission is
rejected, but the call succeeds and the bid is recorded with a price handle
decrypting to 0. -/
theorem C7_counterexample :
    exceptOk (submitBid ⟨21, 2100⟩ 1 0 6 70 0 sBid) = true ∧
    ((applyOp ⟨21, 2100⟩ (.submitBid 1 0 6 70 0) sBid).jobBids 1 21).hasSubmitted
      = true ∧
    (applyOp ⟨21, 2100⟩ (.submitBid 1 0 6 70 0) sBid).fheVal
      ((applyOp ⟨21, 2100⟩ (.submitBid 1 0 6 70 0) sBid).jobBids 1 21).encryptedPrice
      = 0 := by
  refine ⟨by decide, by decide, by decide⟩

/-- Witness for C7: the zero-price submission of carrier 21 on job 1. -/
theorem C7_witness :
    exceptOk (submitBid ⟨21, 2100⟩ 1 0 6 70 0 sBid) = true ∧
    (∀ s2, submitBid ⟨21, 2100⟩ 1 0 6 70 0 sBid = .ok s2 →
      (s2.jobBids 1 21).hasSubmitted = true ∧
      s2.fheVal (s2.jobBids 1 21).encryptedPrice = 0) :=
  C7_zero_price_accepted ⟨21, 2100⟩ sBid 1 6 70 0 (by decide) (by decide)
    (by decide) (by decide) (by decide) (by decide) (by decide) (by decide)

/-- C3 (amended): after a successful `submitBid` the ACL of each of the
bid's four encrypted fields consists of exactly the job's shipper and the
engine itself — the submitting carrier receives no grant — and the shipper
can later extend the ACL to any further account through `allowBidAccess`. -/
theorem C3_bid_acl (ctx : Ctx) (s : EngineState) (jobId p dd r ex : Nat)
    (hfresh : s.fheAcl s.nextHandle = [] ∧ s.fheAcl (s.nextHandle + 1) = [] ∧
      s.fheAcl (s.nextHandle + 1 + 1) = [] ∧
      s.fheAcl (s.nextHandle + 1 + 1 + 1) = []) :
    ∀ s2, submitBid ctx jobId p dd r ex s = .ok s2 →
      (s2.fheAcl (s2.jobBids jobId ctx.sender).encryptedPrice
        = [.acct (s.freightJobs jobId).shipper, .contract] ∧
       s2.fheAcl (s2.jobBids jobId ctx.sender).encryptedDeliveryDays
        = [.acct (s.freightJobs jobId).shipper, .contract] ∧
       s2.fheAcl (s2.jobBids jobId ctx.sender).encryptedReliabilityScore
        = [.acct (s.freightJobs jobId).shipper, .contract] ∧
       s2.fheAcl (s2.jobBids jobId ctx.sender).isExpressService
        = [.acct (s.freightJobs jobId).shipper, .contract]) ∧
      Grantee.acct ctx.sender ∉
        s2.fheAcl (s2.jobBids jobId ctx.sender).encryptedPrice ∧
      (∀ ctx2 target s3, allowBidAccess ctx2 jobId ctx.sender target s2 = .ok s3 →
        Grantee.acct target ∈
          s3.fheAcl (s3.jobBids jobId ctx.sender).encryptedPrice) := by
  intro s2 h
  obtain ⟨hf1, hf2, hf3, hf4⟩ := hfresh
  simp only [submitBid, req, bind, Except.bind, pure, Except.pure,
    Functor.map, Except.map, fheAlloc, fheAllow] at h
  split_ifs at h with hv1 hcv hca hp ho ht hns hsh
  all_goals simp at h
  subst h
  refine ⟨⟨?_, ?_, ?_, ?_⟩, ?_, ?_⟩
  · simp [updFn, updFn2, add_assoc, hf1]
  · simp [updFn, updFn2, add_assoc, hf2]
  · simp [updFn, updFn2, add_assoc, hf3]
  · simp [updFn, updFn2, add_assoc, hf4]
  · simp [updFn, updFn2, add_assoc, hf1, hsh]
  · intro ctx2 target s3 hab
    simp only [allowBidAccess, req, bind, Except.bind, pure, Except.pure,
      Functor.map, Except.map, fheAllow] at hab
    split_ifs at hab
    all_goals simp at hab
    subst hab
    simp [updFn, updFn2, add_assoc]

/-- C3 counterexample: carrier 20's successful bid on job 1 leaves the
carrier itself without any ACL grant on its own encrypted price — the claim
says the plaintext access set is exactly {carrier, shipper} (besides the
engine), but `submitBid` only calls `FHE.allow` for the shipper. -/
theorem C3_counterexample :
    exceptOk (submitBid ⟨20, 2000⟩ 1 4800 5 80 1 sJob) = true ∧
    ((applyOp ⟨20, 2000⟩ (.submitBid 1 4800 5 80 1) sJob).jobBids 1 20).hasSubmitted
      = true ∧
    Grantee.acct 20 ∉
      (applyOp ⟨20, 2000⟩ (.submitBid 1 4800 5 80 1) sJob).fheAcl
        ((applyOp ⟨20, 2000⟩ (.submitBid 1 4800 5 80 1) sJob).jobBids 1 20).encryptedPrice := by
  refine ⟨by decide, by decide, by decide⟩

/-- Witness for C3 at carrier 20's bid on the freshly posted job 1:
the state after the bid is `sBid`. -/
theorem C3_witness :
    (sBid.fheAcl (sBid.jobBids 1 20).encryptedPrice
      = [.acct (sJob.freightJobs 1).shipper, .contract] ∧
     sBid.fheAcl (sBid.jobBids 1 20).encryptedDeliveryDays
      = [.acct (sJob.freightJobs 1).shipper, .contract] ∧
     sBid.fheAcl (sBid.jobBids 1 20).encryptedReliabilityScore
      = [.acct (sJob.freightJobs 1).shipper, .contract] ∧
     sBid.fheAcl (sBid.jobBids 1 20).isExpressService
      = [.acct (sJob.freightJobs 1).shipper, .contract]) ∧
    Grantee.acct 20 ∉ sBid.fheAcl (sBid.jobBids 1 20).encryptedPrice ∧
    (∀ ctx2 target s3, allowBidAccess ctx2 1 20 target sBid = .ok s3 →
      Grantee.acct target ∈ s3.fheAcl (s3.jobBids 1 20).encryptedPrice) :=
  C3_bid_acl ⟨20, 2000⟩ sJob 1 4800 5 80 1 (by decide) sBid rfl

/-- The profile `verifyShipper` writes for a newly verified shipper. -/
def freshShipperProfile (now : Nat) : ShipperProfile :=
  { isVerified := true, totalJobsPosted := 0, totalJobsCompleted := 0,
    joinedAt := now, isActive := true }

/-- C9 (amended): `verifyCarrier` only rejects an account already verified
as a carrier, and `verifyShipper` only rejects one already verified as a
shipper; the roles are not mutually exclusive — the owner can verify an
account already holding the other role, after which it is simultaneously a
verified shipper and a verified carrier. -/
theorem C9_roles_not_exclusive (ctx : Ctx) (s : EngineState) (a : Address)
    (h1 : ctx.sender = s.owner) (h2 : s.paused = false) (h3 : a ≠ 0)
    (h4 : (s.shipperProfiles a).isVerified = false)
    (h5 : (s.carrierProfiles a).isVerified = true) :
    ∃ s2, verifyShipper ctx a s = .ok s2 ∧
      (s2.shipperProfiles a).isVerified = true ∧
      (s2.carrierProfiles a).isVerified = true := by
  have hmain : verifyShipper ctx a s =
      .ok { s with shipperProfiles := updFn s.shipperProfiles a (freshShipperProfile ctx.now) } := by
    simp [freshShipperProfile, verifyShipper, req, bind, Except.bind, pure,
      Except.pure, Functor.map, Except.map, h1, h2, h3, h4]
  exact ⟨_, hmain, by simp [freshShipperProfile, updFn], by simp [h5]⟩

/-- C9 counterexample: account 7 is verified as a carrier and then as a
shipper; both calls succeed, leaving 7 simultaneously a verified carrier
and a verified shipper — the claim says the second verification must be
blocked. -/
theorem C9_counterexample :
    exceptOk (verifyCarrier ⟨1, 50⟩ 7 (initState 1 2)) = true ∧
    exceptOk (verifyShipper ⟨1, 60⟩ 7
      (applyOp ⟨1, 50⟩ (.verifyCarrier 7) (initState 1 2))) = true ∧
    ((execTrace (initState 1 2) [(⟨1, 50⟩, .verifyCarrier 7), (⟨1, 60⟩, .verifyShipper 7)]).carrierProfiles 7).isVerified
      = true ∧
    ((execTrace (initState 1 2) [(⟨1, 50⟩, .verifyCarrier 7), (⟨1, 60⟩, .verifyShipper 7)]).shipperProfiles 7).isVerified
      = true := by
  refine ⟨by decide, by decide, by decide, by decide⟩

/-- Witness for C9: in the registered demo state account 20 is a verified
carrier with no shipper role, and the owner verifies it as a shipper. -/
theorem C9_witness :
    ∃ s2, verifyShipper ⟨1, 200⟩ 20 sReg = .ok s2 ∧
      (s2.shipperProfiles 20).isVerified = true ∧
      (s2.carrierProfiles 20).isVerified = true :=
  C9_roles_not_exclusive ⟨1, 200⟩ sReg 20 (by decide) (by decide) (by decide)
    (by decide) (by decide)

/-- Running a trace in two pieces. -/
theorem execTrace_append (s : EngineState) (t1 t2 : List (Ctx × Op)) :
    execTrace s (t1 ++ t2) = execTrace (execTrace s t1) t2 := by
  induction t1 generalizing s with
  | nil => rfl
  | cons t rest ih => simp [execTrace, ih]

/-- The number of non-terminal (outstanding) jobs a shipper owns. -/
def openJobsOf (s : EngineState) (a : Address) : Nat :=
  ((List.range s.jobCounter).map (fun i => i + 1)).countP
    (fun j => decide ((s.freightJobs j).shipper = a ∧
      (s.freightJobs j).status ≠ .Completed ∧
      (s.freightJobs j).status ≠ .Cancelled))

/-- A run in which shipper 10 is verified once and then posts `n` jobs. -/
def postTrace (n : Nat) : List (Ctx × Op) :=
  (⟨1, 50⟩, .verifyShipper 10) ::
    List.replicate n (⟨10, 100⟩, .postJob "A" "B" "C" 1 1 1 3600)

/-- The state after `postTrace n`. -/
def postState (n : Nat) : EngineState := execTrace (initState 1 2) (postTrace n)

/-- A successful `postJob` step: effect of `applyOp` on the fields the
per-shipper job count depends on. -/
theorem postJob_applyOp (ctx : Ctx) (s : EngineState) (o d c : String)
    (w v u dur : Nat)
    (h1 : (s.shipperProfiles ctx.sender).isVerified = true)
    (h2 : (s.shipperProfiles ctx.sender).isActive = true)
    (h3 : s.paused = false) (h4 : o.length > 0) (h5 : d.length > 0)
    (h6 : oneHour ≤ dur) (h7 : dur ≤ sevenDays) :
    (applyOp ctx (.postJob o d c w v u dur) s).jobCounter = s.jobCounter + 1 ∧
    (applyOp ctx (.postJob o d c w v u dur) s).paused = false ∧
    (∀ x, ((applyOp ctx (.postJob o d c w v u dur) s).shipperProfiles x).isVerified
            = (s.shipperProfiles x).isVerified ∧
          ((applyOp ctx (.postJob o d c w v u dur) s).shipperProfiles x).isActive
            = (s.shipperProfiles x).isActive) ∧
    ((applyOp ctx (.postJob o d c w v u dur) s).freightJobs (s.jobCounter + 1)).shipper
      = ctx.sender ∧
    ((applyOp ctx (.postJob o d c w v u dur) s).freightJobs (s.jobCounter + 1)).status
      = .Open ∧
    (∀ j, j ≠ s.jobCounter + 1 →
      (applyOp ctx (.postJob o d c w v u dur) s).freightJobs j = s.freightJobs j) := by
  simp only [applyOp, postJob, req, bind, Except.bind, pure, Except.pure,
    Functor.map, Except.map, fheAlloc, fheAllow, h1, h2, h3, h4, h5, h6, h7,
    if_true, Except.toOption, Option.getD]
  refine ⟨by simp, by simp [h3], ?_, by simp [updFn], by simp [updFn], ?_⟩
  · intro x
    by_cases hx : x = ctx.sender <;> simp [updFn, hx, h1, h2]
  · intro j hj
    simp [updFn, hj]

/-- The fields of `postState n` relevant to the outstanding-jobs count:
`n` jobs exist, all owned by shipper 10, all still `Open`. -/
theorem postState_spec (n : Nat) :
    (postState n).jobCounter = n ∧ (postState n).paused = false ∧
    ((postState n).shipperProfiles 10).isVerified = true ∧
    ((postState n).shipperProfiles 10).isActive = true ∧
    (∀ j, 1 ≤ j → j ≤ n →
      ((postState n).freightJobs j).shipper = 10 ∧
      ((postState n).freightJobs j).status = .Open) := by
  induction n with
  | zero =>
    refine ⟨by decide, by decide, by decide, by decide, ?_⟩
    intro j hj1 hj2
    omega
  | succ n ih =>
    obtain ⟨hc, hp, hv, ha, hjobs⟩ := ih
    have htr : postTrace (n + 1)
        = postTrace n ++ [(⟨10, 100⟩, .postJob "A" "B" "C" 1 1 1 3600)] := by
      simp [postTrace, List.replicate_succ']
    have hstep : postState (n + 1)
        = applyOp ⟨10, 100⟩ (.postJob "A" "B" "C" 1 1 1 3600) (postState n) := by
      show execTrace (initState 1 2) (postTrace (n + 1)) = _
      rw [htr, execTrace_append]
      rfl
    obtain ⟨g1, g2, g3, g4, g5, g6⟩ :=
      postJob_applyOp ⟨10, 100⟩ (postState n) "A" "B" "C" 1 1 1 3600 hv ha hp
        (by decide) (by decide) (by decide) (by decide)
    rw [hstep]
    refine ⟨by rw [g1, hc], g2, (g3 10).1.trans hv, (g3 10).2.trans ha, ?_⟩
    intro j hj1 hj2
    by_cases hj : j = n + 1
    · subst hj
      rw [hc] at g4 g5
      exact ⟨g4, g5⟩
    · have hj3 : j ≠ (postState n).jobCounter + 1 := by rw [hc]; exact hj
      rw [g6 j hj3]
      exact hjobs j hj1 (by omega)

/-- `postState n` has exactly `n` outstanding jobs for shipper 10. -/
theorem openJobsOf_postState (n : Nat) : openJobsOf (postState n) 10 = n := by
  obtain ⟨hc, hp, hv, ha, hjobs⟩ := postState_spec n
  unfold openJobsOf
  rw [hc, List.countP_eq_length.2]
  · simp
  · intro j hj
    simp only [List.mem_map, List.mem_range] at hj
    obtain ⟨i, hi, rfl⟩ := hj
    obtain ⟨hs, ho⟩ := hjobs (i + 1) (by omega) (by omega)
    simp [hs, ho]

/-- C8 (amended): no caps are enforced.  A verified active shipper's
`postJob` succeeds whenever its input validation passes, with no condition
on how many jobs the shipper already has outstanding; and `submitBid`'s
outcome is entirely independent of the bidder lists, so no number of
already-recorded bids can make it fail. -/
theorem C8_no_caps (ctx : Ctx) (s : EngineState) (o d c : String)
    (w v u dur : Nat)
    (h1 : (s.shipperProfiles ctx.sender).isVerified = true)
    (h2 : (s.shipperProfiles ctx.sender).isActive = true)
    (h3 : s.paused = false) (h4 : o.length > 0) (h5 : d.length > 0)
    (h6 : oneHour ≤ dur) (h7 : dur ≤ sevenDays) :
    exceptOk (postJob ctx o d c w v u dur s) = true ∧
    (∀ (g : Nat → List Address) (jobId p dd r e2 : Nat),
      exceptOk (submitBid ctx jobId p dd r e2 { s with jobBidders := g })
        = exceptOk (submitBid ctx jobId p dd r e2 s)) := by
  constructor
  · simp [postJob, exceptOk_req_bind, exceptOk_map, exceptOk_req, h1, h2, h3,
      h4, h5, h6, h7]
  · intro g jobId p dd r e2
    simp [submitBid, exceptOk_req_bind, exceptOk_map, exceptOk_req]

/-- C8 counterexample: no fixed maximum bounds a shipper's outstanding
non-terminal jobs over the reachable states — for every bound `M` the
reachable state `postState (M+1)` has `M+1` open jobs all owned by shipper
10, so the claimed per-shipper cap (`createJob` failing at some cap) does
not exist, refuting the claim's second conjunct. -/
theorem C8_counterexample :
    ¬ ∃ M : Nat, ∀ s : EngineState, Reachable s → ∀ a : Address,
      openJobsOf s a ≤ M := by
  rintro ⟨M, hM⟩
  have h := hM (postState (M + 1)) ⟨1, 2, postTrace (M + 1), rfl⟩ 10
  rw [openJobsOf_postState] at h
  omega

/-- Witness for C8 at the registered demo state: shipper 10's `postJob`
succeeds, and a `submitBid` outcome is unchanged under any bidder lists. -/
theorem C8_witness :
    exceptOk (postJob ⟨10, 1000⟩ "A" "B" "C" 900 40 1 3600 sReg) = true ∧
    (∀ (g : Nat → List Address) (jobId p dd r e2 : Nat),
      exceptOk (submitBid ⟨10, 1000⟩ jobId p dd r e2 { sReg with jobBidders := g })
        = exceptOk (submitBid ⟨10, 1000⟩ jobId p dd r e2 sReg)) :=
  C8_no_caps ⟨10, 1000⟩ sReg "A" "B" "C" 900 40 1 3600 (by decide) (by decide)
    (by decide) (by decide) (by decide) (by decide) (by decide)

/-- Whether a carrier profile currently counts as active: both the
verification flag and the activity flag are set. -/
def activeFlag (s : EngineState) (a : Address) : Bool :=
  (s.carrierProfiles a).isVerified && (s.carrierProfiles a).isActive

/-- Number of verified-and-active carriers inside a finite support set. -/
def activeCount (s : EngineState) (S : Finset Address) : Nat :=
  Finset.sum S (fun a => if activeFlag s a = true then 1 else 0)

/-- Inductive invariant tying `totalActiveCarriers` to the carrier
profiles: some finite set supports all non-default profiles and carries the
count, every recorded bid belongs to a verified carrier, and every awarded
job's recorded winner is a verified carrier. -/
def CarrierInv (s : EngineState) : Prop :=
  (∃ S : Finset Address,
    (∀ a, a ∉ S → s.carrierProfiles a = CarrierProfile.empty) ∧
    s.totalActiveCarriers = activeCount s S) ∧
  (∀ j c, (s.jobBids j c).hasSubmitted = true →
    (s.carrierProfiles c).isVerified = true) ∧
  (∀ j, (s.freightJobs j).status = .Awarded →
    (s.carrierProfiles (s.jobWinners j)).isVerified = true)

/-- Counting is stable under pointwise-equal flags. -/
theorem activeCount_congr (s1 s2 : EngineState) (S : Finset Address)
    (h : ∀ a ∈ S, activeFlag s1 a = activeFlag s2 a) :
    activeCount s1 S = activeCount s2 S :=
  Finset.sum_congr rfl (fun a ha => by rw [h a ha])

/-- Turning one flag from false to true adds one to the count over the
support extended with that address. -/
theorem activeCount_insert_true (s1 s2 : EngineState) (S : Finset Address)
    (c : Address)
    (hne : ∀ a, a ≠ c → activeFlag s2 a = activeFlag s1 a)
    (hc1 : activeFlag s1 c = false) (hc2 : activeFlag s2 c = true) :
    activeCount s2 (insert c S) = activeCount s1 S + 1 := by
  by_cases hm : c ∈ S
  · rw [Finset.insert_eq_self.2 hm]
    have h1 : activeCount s2 (S.erase c) + 1 = activeCount s2 S := by
      have h0 := Finset.sum_erase_add S
        (fun a => if activeFlag s2 a = true then 1 else 0) hm
      simp only [hc2, if_pos] at h0
      simpa [activeCount] using h0
    have h2 : activeCount s1 (S.erase c) = activeCount s1 S := by
      have h0 := Finset.sum_erase_add S
        (fun a => if activeFlag s1 a = true then 1 else 0) hm
      simp only [hc1] at h0
      simpa [activeCount] using h0
    have h3 : activeCount s2 (S.erase c) = activeCount s1 (S.erase c) :=
      activeCount_congr s2 s1 (S.erase c)
        (fun a ha => hne a (Finset.ne_of_mem_erase ha))
    omega
  · have h1 : activeCount s2 (insert c S)
        = (if activeFlag s2 c = true then 1 else 0) + activeCount s2 S := by
      unfold activeCount
      exact Finset.sum_insert hm
    have h3 : activeCount s2 S = activeCount s1 S :=
      activeCount_congr s2 s1 S
        (fun a ha => hne a (fun hac => hm (hac ▸ ha)))
    rw [h1, h3]
    simp [hc2, Nat.add_comm]

/-- Turning one flag (inside the support) from true to false removes one
from the count. -/
theorem activeCount_set_false (s1 s2 : EngineState) (S : Finset Address)
    (c : Address)
    (hne : ∀ a, a ≠ c → activeFlag s2 a = activeFlag s1 a)
    (hc1 : activeFlag s1 c = true) (hc2 : activeFlag s2 c = false)
    (hm : c ∈ S) :
    activeCount s2 S + 1 = activeCount s1 S := by
  have h1 : activeCount s2 (S.erase c) + 0 = activeCount s2 S := by
    have h0 := Finset.sum_erase_add S
      (fun a => if activeFlag s2 a = true then 1 else 0) hm
    simp only [hc2] at h0
    simpa [activeCount] using h0
  have h2 : activeCount s1 (S.erase c) + 1 = activeCount s1 S := by
    have h0 := Finset.sum_erase_add S
      (fun a => if activeFlag s1 a = true then 1 else 0) hm
    simp only [hc1, if_pos] at h0
    simpa [activeCount] using h0
  have h3 : activeCount s2 (S.erase c) = activeCount s1 (S.erase c) :=
    activeCount_congr s2 s1 (S.erase c)
      (fun a ha => hne a (Finset.ne_of_mem_erase ha))
  omega

/-- `CarrierInv` survives any step that leaves the carrier profiles and the
active-carrier counter untouched, does not create bids, and only moves jobs
into `Awarded`-free territory. -/
theorem CarrierInv_stable (s s2 : EngineState)
    (hcp : s2.carrierProfiles = s.carrierProfiles)
    (htot : s2.totalActiveCarriers = s.totalActiveCarriers)
    (hbids : ∀ j c, (s2.jobBids j c).hasSubmitted = true →
      (s.jobBids j c).hasSubmitted = true)
    (hjobs : ∀ j, (s2.freightJobs j).status = .Awarded →
      (s.freightJobs j).status = .Awarded ∧ s2.jobWinners j = s.jobWinners j)
    (h : CarrierInv s) : CarrierInv s2 := by
  obtain ⟨⟨S, hsupp, hcount⟩, hB, hC⟩ := h
  refine ⟨⟨S, ?_, ?_⟩, ?_, ?_⟩
  · intro a ha
    rw [hcp]
    exact hsupp a ha
  · rw [htot, hcount]
    exact activeCount_congr s s2 S (fun a _ => by simp [activeFlag, hcp])
  · intro j c hb
    rw [hcp]
    exact hB j c (hbids j c hb)
  · intro j hj
    obtain ⟨hj2, hw⟩ := hjobs j hj
    rw [hcp, hw]
    exact hC j hj2

/-- `CarrierInv` survives any step that touches at most one carrier profile
`t` (a verified one), preserving its two flags, and introduces bids or
winners only for `t`. -/
theorem CarrierInv_flags (s s2 : EngineState) (t : Address)
    (hmem : (s.carrierProfiles t).isVerified = true)
    (hcp : ∀ a, a ≠ t → s2.carrierProfiles a = s.carrierProfiles a)
    (hft : (s2.carrierProfiles t).isVerified = (s.carrierProfiles t).isVerified ∧
           (s2.carrierProfiles t).isActive = (s.carrierProfiles t).isActive)
    (htot : s2.totalActiveCarriers = s.totalActiveCarriers)
    (hbids : ∀ j c, (s2.jobBids j c).hasSubmitted = true →
      (s.jobBids j c).hasSubmitted = true ∨ c = t)
    (hjobs : ∀ j, (s2.freightJobs j).status = .Awarded →
      ((s.freightJobs j).status = .Awarded ∧ s2.jobWinners j = s.jobWinners j) ∨
      s2.jobWinners j = t)
    (h : CarrierInv s) : CarrierInv s2 := by
  obtain ⟨⟨S, hsupp, hcount⟩, hB, hC⟩ := h
  have hverified : ∀ a, (s2.carrierProfiles a).isVerified
      = (s.carrierProfiles a).isVerified := by
    intro a
    by_cases ha : a = t
    · rw [ha]
      exact hft.1
    · rw [hcp a ha]
  have htS : t ∈ S := by
    by_contra ht
    rw [hsupp t ht] at hmem
    simp [CarrierProfile.empty] at hmem
  refine ⟨⟨S, ?_, ?_⟩, ?_, ?_⟩
  · intro a ha
    have hat : a ≠ t := fun hEq => ha (hEq ▸ htS)
    rw [hcp a hat]
    exact hsupp a ha
  · rw [htot, hcount]
    refine activeCount_congr s s2 S (fun a _ => ?_)
    by_cases ha : a = t
    · rw [ha]
      simp [activeFlag, hft.1, hft.2]
    · simp [activeFlag, hcp a ha]
  · intro j c hb
    rw [hverified c]
    rcases hbids j c hb with hb2 | hb2
    · exact hB j c hb2
    · rw [hb2]
      exact hmem
  · intro j hj
    rw [hverified]
    rcases hjobs j hj with ⟨hj2, hw⟩ | hw
    · rw [hw]
      exact hC j hj2
    · rw [hw]
      exact hmem

/-- `verifyShipper` preserves the carrier-counter invariant. -/
theorem CarrierInv_verifyShipper_ok (ctx : Ctx) (a : Address)
    (s s2 : EngineState) (hcall : verifyShipper ctx a s = .ok s2)
    (h : CarrierInv s) : CarrierInv s2 := by
  simp only [verifyShipper, req, bind, Except.bind, pure, Except.pure,
    Functor.map, Except.map] at hcall
  split_ifs at hcall
  all_goals simp at hcall
  subst hcall
  exact CarrierInv_stable s _ rfl rfl (fun j c hb => hb)
    (fun j hj => ⟨hj, rfl⟩) h

/-- `deactivateShipper` preserves the carrier-counter invariant. -/
theorem CarrierInv_deactivateShipper_ok (ctx : Ctx) (a : Address)
    (s s2 : EngineState) (hcall : deactivateShipper ctx a s = .ok s2)
    (h : CarrierInv s) : CarrierInv s2 := by
  simp only [deactivateShipper, req, bind, Except.bind, pure, Except.pure,
    Functor.map, Except.map] at hcall
  split_ifs at hcall
  all_goals simp at hcall
  subst hcall
  exact CarrierInv_stable s _ rfl rfl (fun j c hb => hb)
    (fun j hj => ⟨hj, rfl⟩) h

/-- `setPauser` preserves the carrier-counter invariant. -/
theorem CarrierInv_setPauser_ok (ctx : Ctx) (a : Address)
    (s s2 : EngineState) (hcall : setPauser ctx a s = .ok s2)
    (h : CarrierInv s) : CarrierInv s2 := by
  simp only [setPauser, req, bind, Except.bind, pure, Except.pure,
    Functor.map, Except.map] at hcall
  split_ifs at hcall
  all_goals simp at hcall
  subst hcall
  exact CarrierInv_stable s _ rfl rfl (fun j c hb => hb)
    (fun j hj => ⟨hj, rfl⟩) h

/-- `pause` preserves the carrier-counter invariant. -/
theorem CarrierInv_pause_ok (ctx : Ctx) (s s2 : EngineState)
    (hcall : pause ctx s = .ok s2) (h : CarrierInv s) : CarrierInv s2 := by
  simp only [pause, req, bind, Except.bind, pure, Except.pure,
    Functor.map, Except.map] at hcall
  split_ifs at hcall
  all_goals simp at hcall
  subst hcall
  exact CarrierInv_stable s _ rfl rfl (fun j c hb => hb)
    (fun j hj => ⟨hj, rfl⟩) h

/-- `unpause` preserves the carrier-counter invariant. -/
theorem CarrierInv_unpause_ok (ctx : Ctx) (s s2 : EngineState)
    (hcall : unpause ctx s = .ok s2) (h : CarrierInv s) : CarrierInv s2 := by
  simp only [unpause, req, bind, Except.bind, pure, Except.pure,
    Functor.map, Except.map] at hcall
  split_ifs at hcall
  all_goals simp at hcall
  subst hcall
  exact CarrierInv_stable s _ rfl rfl (fun j c hb => hb)
    (fun j hj => ⟨hj, rfl⟩) h

/-- `allowBidAccess` preserves the carrier-counter invariant. -/
theorem CarrierInv_allowBidAccess_ok (ctx : Ctx) (jobId : Nat)
    (c t : Address) (s s2 : EngineState)
    (hcall : allowBidAccess ctx jobId c t s = .ok s2)
    (h : CarrierInv s) : CarrierInv s2 := by
  simp only [allowBidAccess, req, bind, Except.bind, pure, Except.pure,
    Functor.map, Except.map, fheAllow] at hcall
  split_ifs at hcall
  all_goals simp at hcall
  subst hcall
  exact CarrierInv_stable s _ rfl rfl (fun j c hb => hb)
    (fun j hj => ⟨hj, rfl⟩) h

/-- `requestBidPriceReveal` preserves the carrier-counter invariant. -/
theorem CarrierInv_requestBidPriceReveal_ok (ctx : Ctx) (jobId : Nat)
    (c : Address) (s : EngineState) (p : Nat × EngineState)
    (hcall : requestBidPriceReveal ctx jobId c s = .ok p)
    (h : CarrierInv s) : CarrierInv p.2 := by
  simp only [requestBidPriceReveal, req, bind, Except.bind, pure, Except.pure,
    Functor.map, Except.map] at hcall
  split_ifs at hcall
  all_goals simp at hcall
  subst hcall
  exact CarrierInv_stable s _ rfl rfl (fun j c hb => hb)
    (fun j hj => ⟨hj, rfl⟩) h

/-- `postJob` preserves the carrier-counter invariant. -/
theorem CarrierInv_postJob_ok (ctx : Ctx) (o d c : String) (w v u dur : Nat)
    (s : EngineState) (p : Nat × EngineState)
    (hcall : postJob ctx o d c w v u dur s = .ok p)
    (h : CarrierInv s) : CarrierInv p.2 := by
  simp only [postJob, req, bind, Except.bind, pure, Except.pure,
    Functor.map, Except.map, fheAlloc, fheAllow] at hcall
  split_ifs at hcall
  all_goals simp at hcall
  subst hcall
  refine CarrierInv_stable s _ rfl rfl (fun j c hb => hb) ?_ h
  intro j hj
  simp only [updFn] at hj
  split_ifs at hj with hk
  · exact ⟨hj, rfl⟩

/-- `closeBidding` preserves the carrier-counter invariant. -/
theorem CarrierInv_closeBidding_ok (ctx : Ctx) (jobId : Nat)
    (s s2 : EngineState) (hcall : closeBidding ctx jobId s = .ok s2)
    (h : CarrierInv s) : CarrierInv s2 := by
  simp only [closeBidding, req, bind, Except.bind, pure, Except.pure,
    Functor.map, Except.map] at hcall
  split_ifs at hcall
  all_goals simp at hcall
  subst hcall
  refine CarrierInv_stable s _ rfl rfl (fun j c hb => hb) ?_ h
  intro j hj
  simp only [updFn] at hj
  split_ifs at hj with hk
  · exact ⟨hj, rfl⟩

/-- `cancelJob` preserves the carrier-counter invariant. -/
theorem CarrierInv_cancelJob_ok (ctx : Ctx) (jobId : Nat)
    (s s2 : EngineState) (hcall : cancelJob ctx jobId s = .ok s2)
    (h : CarrierInv s) : CarrierInv s2 := by
  simp only [cancelJob, req, bind, Except.bind, pure, Except.pure,
    Functor.map, Except.map] at hcall
  split_ifs at hcall
  all_goals simp at hcall
  subst hcall
  refine CarrierInv_stable s _ rfl rfl (fun j c hb => hb) ?_ h
  intro j hj
  simp only [updFn] at hj
  split_ifs at hj with hk
  · exact ⟨hj, rfl⟩

/-- `callbackBidPriceReveal` preserves the carrier-counter invariant. -/
theorem CarrierInv_callback_ok (ctx : Ctx) (rid pr : Nat)
    (s s2 : EngineState) (hcall : callbackBidPriceReveal ctx rid pr s = .ok s2)
    (h : CarrierInv s) : CarrierInv s2 := by
  simp only [callbackBidPriceReveal, req, bind, Except.bind, pure, Except.pure,
    Functor.map, Except.map] at hcall
  split_ifs at hcall
  all_goals simp at hcall
  subst hcall
  refine CarrierInv_stable s _ rfl rfl ?_ (fun j hj => ⟨hj, rfl⟩) h
  intro j c hb
  simp only [updFn2] at hb
  split_ifs at hb with hk
  · rw [hk.1, hk.2]
    simpa using hb
  · exact hb

/-- `submitBid` preserves the carrier-counter invariant. -/
theorem CarrierInv_submitBid_ok (ctx : Ctx) (jobId p dd r ex : Nat)
    (s s2 : EngineState) (hcall : submitBid ctx jobId p dd r ex s = .ok s2)
    (h : CarrierInv s) : CarrierInv s2 := by
  simp only [submitBid, req, bind, Except.bind, pure, Except.pure,
    Functor.map, Except.map, fheAlloc, fheAllow] at hcall
  split_ifs at hcall with hv hcv hca hp ho ht hns hsh
  all_goals simp at hcall
  subst hcall
  refine CarrierInv_flags s _ ctx.sender hcv ?_ ?_ rfl ?_ ?_ h
  · intro a ha
    simp [updFn, ha]
  · simp [updFn]
  · intro j c hb
    simp only [updFn2] at hb
    split_ifs at hb with hk
    · exact Or.inr hk.2
    · exact Or.inl hb
  · intro j hj
    exact Or.inl ⟨hj, rfl⟩

/-- `awardJob` preserves the carrier-counter invariant. -/
theorem CarrierInv_awardJob_ok (ctx : Ctx) (jobId : Nat) (c : Address)
    (s s2 : EngineState) (hcall : awardJob ctx jobId c s = .ok s2)
    (h : CarrierInv s) : CarrierInv s2 := by
  simp only [awardJob, req, bind, Except.bind, pure, Except.pure,
    Functor.map, Except.map] at hcall
  split_ifs at hcall with hv hs hp hbc hsub hrev
  all_goals simp at hcall
  subst hcall
  have hmem : (s.carrierProfiles c).isVerified = true := h.2.1 jobId c hsub
  refine CarrierInv_flags s _ c hmem ?_ ?_ rfl ?_ ?_ h
  · intro a ha
    simp [updFn, ha]
  · simp [updFn]
  · intro j c2 hb
    simp only [updFn2] at hb
    split_ifs at hb with hk
    · exact Or.inr hk.2
    · exact Or.inl hb
  · intro j hj
    by_cases hk : j = jobId
    · subst hk
      exact Or.inr (by simp [updFn])
    · refine Or.inl ⟨?_, by simp [updFn, hk]⟩
      simp only [updFn] at hj
      rw [if_neg hk] at hj
      exact hj

/-- `completeJob` preserves the carrier-counter invariant. -/
theorem CarrierInv_completeJob_ok (ctx : Ctx) (jobId : Nat)
    (s s2 : EngineState) (hcall : completeJob ctx jobId s = .ok s2)
    (h : CarrierInv s) : CarrierInv s2 := by
  simp only [completeJob, req, bind, Except.bind, pure, Except.pure,
    Functor.map, Except.map] at hcall
  split_ifs at hcall with hv hs hp haw
  all_goals simp at hcall
  subst hcall
  have hmem : (s.carrierProfiles (s.jobWinners jobId)).isVerified = true :=
    h.2.2 jobId haw
  refine CarrierInv_flags s _ (s.jobWinners jobId) hmem ?_ ?_ rfl ?_ ?_ h
  · intro a ha
    simp [updFn, ha]
  · simp [updFn]
  · intro j c hb
    exact Or.inl hb
  · intro j hj
    by_cases hk : j = jobId
    · subst hk
      simp only [updFn] at hj
      simp at hj
    · refine Or.inl ⟨?_, rfl⟩
      simp only [updFn] at hj
      rw [if_neg hk] at hj
      exact hj

/-- `verifyCarrier` increments the counter exactly as the set of
verified-active carriers grows by the newly verified address. -/
theorem CarrierInv_verifyCarrier_ok (ctx : Ctx) (c : Address)
    (s s2 : EngineState) (hcall : verifyCarrier ctx c s = .ok s2)
    (h : CarrierInv s) : CarrierInv s2 := by
  simp only [verifyCarrier, req, bind, Except.bind, pure, Except.pure,
    Functor.map, Except.map, fheAlloc] at hcall
  split_ifs at hcall with how hp hc0 hnv
  all_goals simp at hcall
  subst hcall
  obtain ⟨⟨S, hsupp, hcount⟩, hB, hC⟩ := h
  refine ⟨⟨insert c S, ?_, ?_⟩, ?_, ?_⟩
  · intro a ha
    simp only [Finset.mem_insert, not_or] at ha
    simp only [updFn]
    rw [if_neg ha.1]
    exact hsupp a ha.2
  · show s.totalActiveCarriers + 1 = _
    rw [hcount]
    exact (activeCount_insert_true s _ S c
      (fun a ha => by simp [activeFlag, updFn, ha])
      (by simp [activeFlag, hnv])
      (by simp [activeFlag, updFn])).symm
  · intro j c2 hb
    by_cases hk : c2 = c
    · subst hk
      simp [updFn]
    · simp only [updFn]
      rw [if_neg hk]
      exact hB j c2 hb
  · intro j hj
    by_cases hk : s.jobWinners j = c
    · simp [updFn, hk]
    · simp only [updFn]
      rw [if_neg hk]
      exact hC j hj

/-- Deactivating one verified-active carrier: generic form, with the new
state given by its field equations so it can be inferred from the goal. -/
theorem CarrierInv_deactivate_generic (s s2 : EngineState) (c : Address)
    (hver : (s.carrierProfiles c).isVerified = true)
    (hact : (s.carrierProfiles c).isActive = true)
    (hcp : s2.carrierProfiles = updFn s.carrierProfiles c
      { s.carrierProfiles c with isActive := false })
    (htot : s2.totalActiveCarriers = s.totalActiveCarriers - 1)
    (hbids : s2.jobBids = s.jobBids)
    (hjobs : s2.freightJobs = s.freightJobs)
    (hwin : s2.jobWinners = s.jobWinners)
    (h : CarrierInv s) : CarrierInv s2 := by
  obtain ⟨⟨S, hsupp, hcount⟩, hB, hC⟩ := h
  have hcS : c ∈ S := by
    by_contra hcS
    rw [hsupp c hcS] at hver
    simp [CarrierProfile.empty] at hver
  have hdec := activeCount_set_false s s2 S c
    (fun a ha => by simp [activeFlag, hcp, updFn, ha])
    (by simp [activeFlag, hver, hact])
    (by simp [activeFlag, hcp, updFn]) hcS
  refine ⟨⟨S, ?_, ?_⟩, ?_, ?_⟩
  · intro a ha
    have hac : a ≠ c := fun hEq => ha (hEq ▸ hcS)
    rw [hcp]
    simp only [updFn]
    rw [if_neg hac]
    exact hsupp a ha
  · omega
  · intro j c2 hb
    rw [hbids] at hb
    rw [hcp]
    by_cases hk : c2 = c
    · subst hk
      simp [updFn, hver]
    · simp only [updFn]
      rw [if_neg hk]
      exact hB j c2 hb
  · intro j hj
    rw [hjobs] at hj
    rw [hcp, hwin]
    by_cases hk : s.jobWinners j = c
    · simp [updFn, hk, hver]
    · simp only [updFn]
      rw [if_neg hk]
      exact hC j hj

/-- `deactivateCarrier` decrements the counter exactly as one
verified-active carrier goes inactive. -/
theorem CarrierInv_deactivateCarrier_ok (ctx : Ctx) (c : Address)
    (s s2 : EngineState) (hcall : deactivateCarrier ctx c s = .ok s2)
    (h : CarrierInv s) : CarrierInv s2 := by
  simp only [deactivateCarrier, req, bind, Except.bind, pure, Except.pure,
    Functor.map, Except.map] at hcall
  split_ifs at hcall with how hver hact
  all_goals simp at hcall
  subst hcall
  exact CarrierInv_deactivate_generic s _ c hver hact rfl rfl rfl rfl rfl h

/-- Every transaction (successful or reverted) preserves the
carrier-counter invariant. -/
theorem CarrierInv_applyOp (ctx : Ctx) (op : Op) (s : EngineState)
    (h : CarrierInv s) : CarrierInv (applyOp ctx op s) := by
  cases op with
  | verifyCarrier c =>
    cases hcall : verifyCarrier ctx c s with
    | error e => simpa [applyOp, hcall, Except.toOption] using h
    | ok s2 =>
      simpa [applyOp, hcall, Except.toOption] using
        CarrierInv_verifyCarrier_ok ctx c s s2 hcall h
  | verifyShipper a =>
    cases hcall : verifyShipper ctx a s with
    | error e => simpa [applyOp, hcall, Except.toOption] using h
    | ok s2 =>
      simpa [applyOp, hcall, Except.toOption] using
        CarrierInv_verifyShipper_ok ctx a s s2 hcall h
  | deactivateCarrier c =>
    cases hcall : deactivateCarrier ctx c s with
    | error e => simpa [applyOp, hcall, Except.toOption] using h
    | ok s2 =>
      simpa [applyOp, hcall, Except.toOption] using
        CarrierInv_deactivateCarrier_ok ctx c s s2 hcall h
  | deactivateShipper a =>
    cases hcall : deactivateShipper ctx a s with
    | error e => simpa [applyOp, hcall, Except.toOption] using h
    | ok s2 =>
      simpa [applyOp, hcall, Except.toOption] using
        CarrierInv_deactivateShipper_ok ctx a s s2 hcall h
  | setPauser a =>
    cases hcall : setPauser ctx a s with
    | error e => simpa [applyOp, hcall, Except.toOption] using h
    | ok s2 =>
      simpa [applyOp, hcall, Except.toOption] using
        CarrierInv_setPauser_ok ctx a s s2 hcall h
  | pause =>
    cases hcall : pause ctx s with
    | error e => simpa [applyOp, hcall, Except.toOption] using h
    | ok s2 =>
      simpa [applyOp, hcall, Except.toOption] using
        CarrierInv_pause_ok ctx s s2 hcall h
  | unpause =>
    cases hcall : unpause ctx s with
    | error e => simpa [applyOp, hcall, Except.toOption] using h
    | ok s2 =>
      simpa [applyOp, hcall, Except.toOption] using
        CarrierInv_unpause_ok ctx s s2 hcall h
  | postJob o d c w v u dur =>
    cases hcall : postJob ctx o d c w v u dur s with
    | error e => simpa [applyOp, hcall, Except.toOption, Except.map] using h
    | ok p2 =>
      simpa [applyOp, hcall, Except.toOption, Except.map] using
        CarrierInv_postJob_ok ctx o d c w v u dur s p2 hcall h
  | submitBid jobId p dd r ex =>
    cases hcall : submitBid ctx jobId p dd r ex s with
    | error e => simpa [applyOp, hcall, Except.toOption] using h
    | ok s2 =>
      simpa [applyOp, hcall, Except.toOption] using
        CarrierInv_submitBid_ok ctx jobId p dd r ex s s2 hcall h
  | closeBidding jobId =>
    cases hcall : closeBidding ctx jobId s with
    | error e => simpa [applyOp, hcall, Except.toOption] using h
    | ok s2 =>
      simpa [applyOp, hcall, Except.toOption] using
        CarrierInv_closeBidding_ok ctx jobId s s2 hcall h
  | requestBidPriceReveal jobId c =>
    cases hcall : requestBidPriceReveal ctx jobId c s with
    | error e => simpa [applyOp, hcall, Except.toOption, Except.map] using h
    | ok p2 =>
      simpa [applyOp, hcall, Except.toOption, Except.map] using
        CarrierInv_requestBidPriceReveal_ok ctx jobId c s p2 hcall h
  | callbackBidPriceReveal rid pr =>
    cases hcall : callbackBidPriceReveal ctx rid pr s with
    | error e => simpa [applyOp, hcall, Except.toOption] using h
    | ok s2 =>
      simpa [applyOp, hcall, Except.toOption] using
        CarrierInv_callback_ok ctx rid pr s s2 hcall h
  | awardJob jobId c =>
    cases hcall : awardJob ctx jobId c s with
    | error e => simpa [applyOp, hcall, Except.toOption] using h
    | ok s2 =>
      simpa [applyOp, hcall, Except.toOption] using
        CarrierInv_awardJob_ok ctx jobId c s s2 hcall h
  | completeJob jobId =>
    cases hcall : completeJob ctx jobId s with
    | error e => simpa [applyOp, hcall, Except.toOption] using h
    | ok s2 =>
      simpa [applyOp, hcall, Except.toOption] using
        CarrierInv_completeJob_ok ctx jobId s s2 hcall h
  | cancelJob jobId =>
    cases hcall : cancelJob ctx jobId s with
    | error e => simpa [applyOp, hcall, Except.toOption] using h
    | ok s2 =>
      simpa [applyOp, hcall, Except.toOption] using
        CarrierInv_cancelJob_ok ctx jobId s s2 hcall h
  | allowBidAccess jobId c t =>
    cases hcall : allowBidAccess ctx jobId c t s with
    | error e => simpa [applyOp, hcall, Except.toOption] using h
    | ok s2 =>
      simpa [applyOp, hcall, Except.toOption] using
        CarrierInv_allowBidAccess_ok ctx jobId c t s s2 hcall h

/-- The constructor state satisfies the carrier-counter invariant. -/
theorem CarrierInv_init (d g : Address) : CarrierInv (initState d g) := by
  refine ⟨⟨∅, fun a _ => rfl, by simp [initState, activeCount]⟩, ?_, ?_⟩
  · intro j c hb
    simp [initState, Bid.empty] at hb
  · intro j hj
    simp [initState, FreightJob.empty] at hj

/-- The carrier-counter invariant holds along every trace. -/
theorem CarrierInv_execTrace (tr : List (Ctx × Op)) (s : EngineState)
    (h : CarrierInv s) : CarrierInv (execTrace s tr) := by
  induction tr generalizing s with
  | nil => exact h
  | cons t rest ih => exact ih _ (CarrierInv_applyOp t.1 t.2 s h)

/-- C10: in every reachable state, the public counter
`totalActiveCarriers` equals the number of accounts whose `CarrierProfile`
has both `isVerified` and `isActive` set (incremented exactly on first
verification, decremented exactly on deactivation of an active verified
carrier, with no reactivation path). -/
theorem C10_active_carrier_count (s : EngineState) (h : Reachable s) :
    ∃ S : Finset Address,
      (∀ a : Address, a ∈ S ↔ activeFlag s a = true) ∧
      s.totalActiveCarriers = S.card := by
  obtain ⟨d, g, tr, rfl⟩ := h
  obtain ⟨⟨S, hsupp, hcount⟩, -, -⟩ :=
    CarrierInv_execTrace tr (initState d g) (CarrierInv_init d g)
  refine ⟨S.filter (fun a => activeFlag (execTrace (initState d g) tr) a = true),
    ?_, ?_⟩
  · intro a
    constructor
    · intro ha
      exact (Finset.mem_filter.1 ha).2
    · intro ha
      refine Finset.mem_filter.2 ⟨?_, ha⟩
      by_contra haS
      simp [activeFlag, hsupp a haS, CarrierProfile.empty] at ha
  · rw [hcount, Finset.card_filter]
    rfl

/-- Witness for C10 at the revealed demo state, reachable via `demoTrace`:
its two verified active carriers (20 and 21) match the counter. -/
theorem C10_witness :
    ∃ S : Finset Address,
      (∀ a : Address, a ∈ S ↔ activeFlag sRevealed a = true) ∧
      sRevealed.totalActiveCarriers = S.card :=
  C10_active_carrier_count sRevealed ⟨1, 2, demoTrace, rfl⟩
